import Mathlib

/-!
Verification development for the bulk-games backend (Texas Hold'em poker +
UNO realtime server).  The definitions below are a shallow embedding of the
TypeScript source:

* `src/src/uno/game.ts` / `src/src/uno/types.ts` — the UNO engine,
* `src/unnamed/part_005` — the poker hand evaluator and the poker engine,
* `src/src/index.ts` — the session layer (multi-lobby guard).

JavaScript specifics are modelled as follows: `Record<string, T>` objects
become association lists with first-occurrence lookup and in-place update
(JS objects cannot hold duplicate keys and preserve insertion order);
`Math.random` / `Date.now` / generated ids become fields of an explicit
environment value threaded through the operations; in-place mutation of the
lobby object held by the registry is made explicit by returning the state
the registry holds after the call (mutations performed on the object before
an early error return persist, exactly as in the source).  Machine numbers
are `Nat`/`Int` (the source only uses small non-negative integers and
`1 | -1` directions).
-/

namespace BulkGames

/-! ## UNO data model (src/src/uno/types.ts) -/

inductive UnoColor
  | red
  | green
  | blue
  | yellow
deriving DecidableEq, Repr

inductive UnoCardFace
  | number (color : UnoColor) (value : Nat)
  | skip (color : UnoColor)
  | reverse (color : UnoColor)
  | draw2 (color : UnoColor)
  | wild
  | wild4
deriving DecidableEq, Repr

structure UnoCard where
  id : String
  face : UnoCardFace
deriving DecidableEq, Repr

inductive UnoPhase
  | lobby
  | playing
  | finished
deriving DecidableEq, Repr

structure UnoPlayer where
  playerId : String
  seatIndex : Nat
  nickname : String
  avatarUrl : Option String
  isConnected : Bool
  lastSeenAt : Nat
  equippedBorder : Option String
  equippedEffect : Option String
deriving DecidableEq, Repr

structure UnoLogEntry where
  id : String
  ts : Nat
  type : String
  playerId : Option String
  text : String
deriving DecidableEq, Repr

structure UnoPrompt where
  targetPlayerId : String
  buttonPosX : Nat
  buttonPosY : Nat
  createdAt : Nat
deriving DecidableEq, Repr

structure UnoCelebration where
  id : String
  winnerId : String
  effectId : String
  createdAt : Nat
deriving DecidableEq, Repr

structure DrawnPlayable where
  playerId : String
  cardId : String
deriving DecidableEq, Repr

structure UnoGameState where
  lobbyCode : String
  hostId : String
  players : List UnoPlayer
  isPublic : Bool
  maxPlayers : Nat
  phase : UnoPhase
  gameStarted : Bool
  dealerIndex : Nat
  direction : Int
  currentPlayerIndex : Nat
  hands : List (String × List UnoCard)
  drawPile : List UnoCard
  discardPile : List UnoCard
  currentColor : Option UnoColor
  pendingDraw : Nat
  drawnPlayable : Option DrawnPlayable
  mustCallUno : Option String
  unoPrompt : Option UnoPrompt
  winnerId : Option String
  celebration : Option UnoCelebration
  rewardIssued : Bool
  actionLog : List UnoLogEntry
  createdAt : Nat
  updatedAt : Nat
  version : Nat
deriving DecidableEq, Repr

/-- Environment supplying the effectful inputs of the engine (`Date.now`,
`Math.random`-derived values, generated identifiers). -/
structure UnoEnv where
  now : Nat
  logId : String
  rand : Nat → Nat
  promptX : Nat
  promptY : Nat
  cardId : Nat → String

/-! ## JS `Record<string, T>` as an association list -/

/-- `record[k] || []` — first-occurrence lookup, defaulting to the empty list. -/
def recGet (m : List (String × List UnoCard)) (k : String) : List UnoCard :=
  match m.find? (fun p => p.1 == k) with
  | some p => p.2
  | none => []

/-- `{ ...record, [k]: v }` — replace the (unique) existing key in place, or
append a fresh key at the end, matching JS object key order. -/
def recSet (m : List (String × List UnoCard)) (k : String) (v : List UnoCard) :
    List (String × List UnoCard) :=
  match m with
  | [] => [(k, v)]
  | (k', v') :: rest => if k' == k then (k, v) :: rest else (k', v') :: recSet rest k v

/-- `delete record[k]` — drop the (unique) key. -/
def recDel (m : List (String × List UnoCard)) (k : String) :
    List (String × List UnoCard) :=
  match m with
  | [] => []
  | (k', v') :: rest => if k' == k then rest else (k', v') :: recDel rest k

/-! ## Helpers of src/src/uno/game.ts -/

/-- One step of `(idx + direction + count) % count` (all quantities are small
and non-negative, so JS `%` agrees with integer `%`). -/
def stepIndex (idx : Nat) (direction : Int) (count : Nat) : Nat :=
  (((idx : Int) + direction + count) % (count : Int)).toNat

/-- `nextIndex(from, direction, count, steps)` from src/src/uno/game.ts. -/
def nextIndex (start : Nat) (direction : Int) (count : Nat) (steps : Nat) : Nat :=
  if count = 0 then 0
  else (List.range steps).foldl (fun idx _ => stepIndex idx direction count) start

/-- Swap two positions of a list (the `[a[i], a[j]] = [a[j], a[i]]` step). -/
def listSwap {α : Type} (a : List α) (i j : Nat) : List α :=
  match a[i]?, a[j]? with
  | some x, some y => (a.set i y).set j x
  | _, _ => a

/-- Fisher–Yates loop: for `i` from `a.length - 1` down to `1`, swap `a[i]`
with `a[rand i % (i+1)]`.  The first argument is the remaining top index. -/
def shuffleAux {α : Type} (rand : Nat → Nat) : Nat → List α → List α
  | 0, a => a
  | i + 1, a => shuffleAux rand i (listSwap a (i + 1) (rand (i + 1) % (i + 2)))

/-- `shuffle` from src/src/uno/game.ts with the `Math.random` draws supplied
by `rand` (the value used at top index `i` is `rand i % (i+1)`). -/
def shuffle {α : Type} (rand : Nat → Nat) (arr : List α) : List α :=
  shuffleAux rand (arr.length - 1) arr

def isWild (face : UnoCardFace) : Bool :=
  match face with
  | .wild => true
  | .wild4 => true
  | _ => false

/-- `'color' in card` projection. -/
def faceColor? (face : UnoCardFace) : Option UnoColor :=
  match face with
  | .number c _ => some c
  | .skip c => some c
  | .reverse c => some c
  | .draw2 c => some c
  | .wild => none
  | .wild4 => none

/-- `isPlayableCard(card, top, currentColor)` from src/src/uno/game.ts. -/
def isPlayableCard (card : UnoCardFace) (top : Option UnoCardFace)
    (currentColor : Option UnoColor) : Bool :=
  if isWild card then true
  else match top with
  | none => true
  | some topFace =>
    match currentColor with
    | none => true
    | some cc =>
      if faceColor? card == some cc then true
      else match topFace with
      | .number _ v =>
        match card with
        | .number _ v' => v' == v
        | _ => false
      | .skip _ => (match card with | .skip _ => true | _ => false)
      | .reverse _ => (match card with | .reverse _ => true | _ => false)
      | .draw2 _ => (match card with | .draw2 _ => true | _ => false)
      | .wild => false
      | .wild4 => false

/-- `hasColor(hand, color)` from src/src/uno/game.ts. -/
def hasColor (hand : List UnoCard) (color : UnoColor) : Bool :=
  hand.any (fun c => !isWild c.face && faceColor? c.face == some color)

def colorName (c : UnoColor) : String :=
  match c with
  | .red => "Red"
  | .green => "Green"
  | .blue => "Blue"
  | .yellow => "Yellow"

def colorUpper (c : UnoColor) : String :=
  match c with
  | .red => "RED"
  | .green => "GREEN"
  | .blue => "BLUE"
  | .yellow => "YELLOW"

/-- `cardLabel(face)` from src/src/uno/game.ts. -/
def cardLabel (face : UnoCardFace) : String :=
  match face with
  | .wild => "Wild"
  | .wild4 => "Wild Draw Four"
  | .number c v => colorName c ++ " " ++ toString v
  | .draw2 c => colorName c ++ " Draw Two"
  | .reverse c => colorName c ++ " Reverse"
  | .skip c => colorName c ++ " Skip"

/-- JS `array.slice(-n)` for a list. -/
def takeLast {α : Type} (n : Nat) (l : List α) : List α :=
  l.drop (l.length - n)

/-- `addLog(state, entry)` from src/src/uno/game.ts (entry id and timestamp
come from the environment). -/
def addLog (env : UnoEnv) (s : UnoGameState) (type : String)
    (playerId : Option String) (text : String) : UnoGameState :=
  { s with actionLog :=
      takeLast 200 (s.actionLog ++ [⟨env.logId, env.now, type, playerId, text⟩]) }

/-- `refillIfNeeded` inside `drawCards`: when the draw pile is empty and the
discard pile has more than one card, keep the discard top and shuffle the
rest into a new draw pile. -/
def refillIfNeeded (rand : Nat → Nat) (drawPile discardPile : List UnoCard) :
    List UnoCard × List UnoCard :=
  if drawPile.length > 0 then (drawPile, discardPile)
  else if discardPile.length ≤ 1 then (drawPile, discardPile)
  else
    match discardPile.getLast? with
    | none => (drawPile, discardPile)
    | some top => (shuffle rand discardPile.dropLast, [top])

/-- The draw loop of `drawCards`: returns the final draw pile, discard pile
and the accumulated drawn cards. -/
def drawCardsAux (rand : Nat → Nat) :
    Nat → List UnoCard → List UnoCard → List UnoCard →
    List UnoCard × List UnoCard × List UnoCard
  | 0, dp, dc, out => (dp, dc, out)
  | n + 1, dp, dc, out =>
    let r := refillIfNeeded rand dp dc
    match r.1 with
    | [] => (r.1, r.2, out)
    | c :: rest => drawCardsAux rand n rest r.2 (out ++ [c])

/-- `drawCards(state, count)` from src/src/uno/game.ts. -/
def drawCards (rand : Nat → Nat) (s : UnoGameState) (count : Nat) :
    UnoGameState × List UnoCard :=
  let r := drawCardsAux rand count s.drawPile s.discardPile []
  ({ s with drawPile := r.1, discardPile := r.2.1 }, r.2.2)

/-! ## UNO engine operations (class UnoGame, src/src/uno/game.ts)

Each method of the class is modelled as a pure function; the state it
returns is the state the registry (`this.lobbies`) holds after the call.
`this.lobbies.get(code)` aliases the stored object, so in-place field
assignments performed before an early `return` persist in the registry even
when the method reports a failure — the embedding makes those explicit. -/

/-- Acknowledgement shape of `handleAction`. -/
structure UnoAck where
  success : Bool
  error : Option String
  version : Option Nat
deriving DecidableEq, Repr

/-- `lobby.players[i].nickname`; in the source the index is always in bounds
when this is read (guarded by the turn check in `handleAction`). -/
def playerNick (s : UnoGameState) (i : Nat) : String :=
  (s.players[i]?.map (fun p => p.nickname)).getD "Player"

/-- `bumpState(s)` from src/src/uno/game.ts. -/
def bumpState (env : UnoEnv) (s : UnoGameState) : UnoGameState :=
  { s with updatedAt := env.now, version := s.version + 1 }

/-- `player?.nickname || 'Player'`. -/
def foundNick (s : UnoGameState) (pid : String) : String :=
  match s.players.find? (fun p => p.playerId == pid) with
  | some p => if p.nickname == "" then "Player" else p.nickname
  | none => "Player"

/-- `applyCallUno(lobby, code, pid)`: on success the bumped state is stored
in the registry; on failure the stored state is unchanged. -/
def applyCallUno (env : UnoEnv) (s : UnoGameState) (pid : String) :
    Except String UnoGameState :=
  if s.mustCallUno ≠ some pid then
    .error "You don't need to call UNO"
  else
    let next := { s with mustCallUno := none, unoPrompt := none }
    let next := addLog env next "uno_called" (some pid) (foundNick s pid ++ " says UNO!")
    .ok (bumpState env next)

/-- `applyCatchUno(lobby, code, catcherPid)`. -/
def applyCatchUno (env : UnoEnv) (s : UnoGameState) (catcherPid : String) :
    Except String UnoGameState :=
  match s.mustCallUno with
  | none => .error "No one to catch"
  | some violatorPid =>
    if violatorPid == catcherPid then .error "You cannot catch yourself"
    else
      let next := { s with mustCallUno := none, unoPrompt := none }
      let next := addLog env next "uno_caught" (some catcherPid)
        (foundNick s catcherPid ++ " caught " ++ foundNick s violatorPid ++
          "! Penalty: draw 2 cards")
      let drawn := drawCards env.rand next 2
      let next := drawn.1
      let violatorHand := recGet next.hands violatorPid ++ drawn.2
      let next := { next with hands := recSet next.hands violatorPid violatorHand }
      .ok (bumpState env next)

/-- `applyDraw(lobby, pid)` — returns the next state (not yet bumped). -/
def applyDraw (env : UnoEnv) (s : UnoGameState) (pid : String) :
    Except String UnoGameState :=
  if (s.drawnPlayable.map (fun d => d.playerId)) == some pid then
    .error "Already drew a playable card"
  else
    let hand := recGet s.hands pid
    let top := (s.discardPile.getLast?).map (fun c => c.face)
    let playableNow := hand.any (fun c =>
      isPlayableCard c.face top s.currentColor &&
      !(c.face == .wild4 && s.currentColor.isSome &&
        hasColor hand ((s.currentColor).getD .red)))
    if playableNow then .error "You have a playable card"
    else
      let drawn := drawCards env.rand s 1
      match drawn.2 with
      | [] => .error "Draw pile is empty"
      | card :: _ =>
        let next := drawn.1
        let newHand := hand ++ [card]
        let next := { next with hands := recSet next.hands pid newHand }
        let next := addLog env next "drew" (some pid)
          (playerNick next next.currentPlayerIndex ++ " drew 1 card")
        let isPlayableDrawn :=
          isPlayableCard card.face top next.currentColor &&
          !(card.face == .wild4 && next.currentColor.isSome &&
            hasColor newHand ((next.currentColor).getD .red))
        if isPlayableDrawn then
          let next := addLog env next "system" none "Drawn card is playable"
          .ok { next with drawnPlayable := some ⟨pid, card.id⟩ }
        else
          let next := addLog env next "passed" (some pid)
            (playerNick next next.currentPlayerIndex ++ " passes")
          .ok { next with currentPlayerIndex :=
            (nextIndex next.currentPlayerIndex next.direction next.players.length 1) }

/-- `applyPass(lobby, pid)`. -/
def applyPass (env : UnoEnv) (s : UnoGameState) (pid : String) :
    Except String UnoGameState :=
  match s.drawnPlayable with
  | none => .error "Cannot pass now"
  | some d =>
    if d.playerId ≠ pid then .error "Cannot pass now"
    else
      let next := { s with drawnPlayable := none }
      let next := addLog env next "passed" (some pid)
        (playerNick next next.currentPlayerIndex ++ " passes")
      .ok { next with currentPlayerIndex :=
        (nextIndex next.currentPlayerIndex next.direction next.players.length 1) }

/-- Celebration effect id from the winner's equipped cosmetic. -/
def celebrationEffect (equipped : Option String) : String :=
  if equipped == some "effect_red_hearts" then "red_hearts"
  else if equipped == some "effect_black_hearts" then "black_hearts"
  else "stars"

/-- The `drawForNext(amount)` closure inside `applyPlay`. -/
def drawForNext (env : UnoEnv) (next : UnoGameState) (cur : Nat) (dir : Int)
    (n : Nat) (amount : Nat) : UnoGameState :=
  let victimIdx := nextIndex cur dir n 1
  let victimPid := ((next.players[victimIdx]?).map (fun p => p.playerId)).getD ""
  let drawn := drawCards env.rand next amount
  let victimHand := recGet next.hands victimPid ++ drawn.2
  let t := drawn.1
  let t := { t with hands := recSet t.hands victimPid victimHand, pendingDraw := amount }
  let t := addLog env t "drew" none
    (playerNick next victimIdx ++ " draws " ++ toString amount ++ " and is skipped")
  { t with currentPlayerIndex := nextIndex cur dir n 2, pendingDraw := 0 }

/-- The mutation block of `applyPlay`: remove the card from the hand, push
it on the discard pile, clear `drawnPlayable` and `pendingDraw`. -/
def playRemoveCard (s : UnoGameState) (pid : String) (card : UnoCard)
    (ci : Nat) : UnoGameState :=
  { s with
    hands := recSet s.hands pid ((recGet s.hands pid).eraseIdx ci),
    discardPile := s.discardPile ++ [card],
    drawnPlayable := none,
    pendingDraw := 0 }

/-- The colour update + log entry of `applyPlay` (wilds take the chosen
colour, other cards their own). -/
def playSetColor (env : UnoEnv) (s : UnoGameState) (pid : String)
    (card : UnoCard) (chosenColor : Option UnoColor) (nick : String) :
    UnoGameState :=
  if isWild card.face then
    addLog env { s with currentColor := chosenColor } "played" (some pid)
      (nick ++ " played " ++ cardLabel card.face ++ " — Color: " ++
        colorUpper ((chosenColor).getD .red))
  else
    addLog env { s with currentColor := faceColor? card.face } "played" (some pid)
      (nick ++ " played " ++ cardLabel card.face)

/-- The UNO-mandate block of `applyPlay`: a play leaving exactly one card
sets `mustCallUno` and the server-positioned prompt. -/
def playMaybeUno (env : UnoEnv) (s : UnoGameState) (pid : String)
    (afterCount : Nat) : UnoGameState :=
  if afterCount == 1 then
    { s with
      mustCallUno := some pid,
      unoPrompt := some ⟨pid, env.promptX, env.promptY, env.now⟩ }
  else s

/-- The win block of `applyPlay`: empty hand finishes the game with a
celebration payload. -/
def playFinish (env : UnoEnv) (s : UnoGameState) (pid code nick : String) :
    UnoGameState :=
  let equipped := (s.players[s.currentPlayerIndex]?.bind (fun p => p.equippedEffect))
  let next := { s with
    phase := UnoPhase.finished,
    winnerId := some pid,
    celebration := some
      ⟨"uno_" ++ code ++ "_" ++ toString env.now, pid,
        celebrationEffect equipped, env.now⟩ }
  addLog env next "winner" (some pid) (nick ++ " wins!")

/-- The effect block of `applyPlay`: Skip advances two, Reverse flips the
direction (acting as Skip heads-up), Draw2/Wild4 make the next player draw
and skip, anything else advances one. -/
def playEffect (env : UnoEnv) (s : UnoGameState) (card : UnoCard) :
    UnoGameState :=
  let n := s.players.length
  let dir := s.direction
  let cur := s.currentPlayerIndex
  match card.face with
  | .skip _ =>
    let next := addLog env s "skipped" none "Skip!"
    { next with currentPlayerIndex := nextIndex cur dir n 2 }
  | .reverse _ =>
    let ndir : Int := if dir == 1 then -1 else 1
    let next := addLog env s "reversed" none "Reverse!"
    if n == 2 then
      { next with direction := ndir, currentPlayerIndex := cur }
    else
      { next with
        direction := ndir,
        currentPlayerIndex := nextIndex cur ndir n 1 }
  | .draw2 _ =>
    let next := addLog env s "system" none "Draw Two!"
    drawForNext env next cur dir n 2
  | .wild4 =>
    let next := addLog env s "system" none "Wild Draw Four!"
    drawForNext env next cur dir n 4
  | _ => { s with currentPlayerIndex := nextIndex cur dir n 1 }

/-- The success path of `applyPlay` after all guards have passed. -/
def applyPlayOk (env : UnoEnv) (s : UnoGameState) (pid : String)
    (card : UnoCard) (ci : Nat) (chosenColor : Option UnoColor) : UnoGameState :=
  let next := playRemoveCard s pid card ci
  let nick := playerNick next next.currentPlayerIndex
  let afterCount := ((recGet s.hands pid).eraseIdx ci).length
  let next := playSetColor env next pid card chosenColor nick
  let next := playMaybeUno env next pid afterCount
  if afterCount == 0 then playFinish env next pid s.lobbyCode nick
  else playEffect env next card

/-- `applyPlay(lobby, pid, cardId, chosenColor)` — validates, then removes
the card from the hand, pushes it on the discard pile and applies its
effect via `applyPlayOk`; returns the next state (not yet bumped). -/
def applyPlay (env : UnoEnv) (s : UnoGameState) (pid : String) (cardId : String)
    (chosenColor : Option UnoColor) : Except String UnoGameState :=
  match (recGet s.hands pid).findIdx? (fun c => c.id == cardId) with
  | none => .error "Card not found"
  | some ci =>
    if (match s.drawnPlayable with
        | some d => d.playerId == pid && d.cardId != cardId
        | none => false) then
      .error "Must play the drawn card or pass"
    else
      match (recGet s.hands pid)[ci]? with
      | none => .error "Card not found"
      | some card =>
        let top := (s.discardPile.getLast?).map (fun c => c.face)
        if !isPlayableCard card.face top s.currentColor then
          .error "Card not playable"
        else if card.face == .wild4 && s.currentColor.isSome &&
            hasColor (recGet s.hands pid) ((s.currentColor).getD .red) then
          .error "Cannot play Wild Draw Four when you have the current color"
        else if isWild card.face && chosenColor.isNone then
          .error "chosenColor required"
        else
          .ok (applyPlayOk env s pid card ci chosenColor)

/-! ## UNO action dispatch (`handleAction`) -/

inductive UnoPlayerAction
  | play (cardId : String) (chosenColor : Option UnoColor)
  | draw
  | pass
  | callUno
  | catchUno
deriving DecidableEq, Repr

/-- The in-place `lobby.mustCallUno = null; lobby.unoPrompt = null` block of
`handleAction` ("auto-expire mustCallUno when the next normal action
happens").  Because `lobby` aliases the registry entry, this mutation
persists even when the subsequent `apply…` rejects the action. -/
def clearUno (s : UnoGameState) : UnoGameState :=
  if s.mustCallUno.isSome then { s with mustCallUno := none, unoPrompt := none } else s

/-- `lobby.players.findIndex(p => p.playerId === pid) === lobby.currentPlayerIndex`
(`findIndex` yields `-1` when absent, which never equals the non-negative
current index). -/
def isCurrentPlayer (s : UnoGameState) (pid : String) : Bool :=
  match s.players.findIdx? (fun p => p.playerId == pid) with
  | some i => i == s.currentPlayerIndex
  | none => false

/-- The shared tail of the `draw` / `pass` / `play` branches of
`handleAction`: turn check, auto-expiry of `mustCallUno`, then the specific
`apply…` call; on success the bumped state is stored and acknowledged with
its version. -/
def turnAction (env : UnoEnv) (s : UnoGameState) (pid : String)
    (k : UnoGameState → Except String UnoGameState) : UnoAck × UnoGameState :=
  if !isCurrentPlayer s pid then (⟨false, some "Not your turn", none⟩, s)
  else
    let s1 := clearUno s
    match k s1 with
    | .error e => (⟨false, some e, none⟩, s1)
    | .ok st =>
      let ns := bumpState env st
      (⟨true, none, some ns.version⟩, ns)

/-- `handleAction(code, pid, action)` from src/src/uno/game.ts.  The second
component is the state held by the registry after the call. -/
def handleAction (env : UnoEnv) (s : UnoGameState) (pid : String)
    (action : UnoPlayerAction) : UnoAck × UnoGameState :=
  if !s.gameStarted || s.phase ≠ UnoPhase.playing then
    (⟨false, some "Game not in progress", none⟩, s)
  else match action with
  | .callUno =>
    match applyCallUno env s pid with
    | .error e => (⟨false, some e, none⟩, s)
    | .ok s' => (⟨true, none, none⟩, s')
  | .catchUno =>
    match applyCatchUno env s pid with
    | .error e => (⟨false, some e, none⟩, s)
    | .ok s' => (⟨true, none, none⟩, s')
  | .draw => turnAction env s pid (fun s1 => applyDraw env s1 pid)
  | .pass => turnAction env s pid (fun s1 => applyPass env s1 pid)
  | .play cardId chosenColor =>
    turnAction env s pid (fun s1 => applyPlay env s1 pid cardId chosenColor)

/-! ## UNO lobby lifecycle -/

/-- Update the first element satisfying `p` (JS `find` + in-place mutation). -/
def updateFirst {α : Type} (l : List α) (p : α → Bool) (f : α → α) : List α :=
  match l with
  | [] => []
  | x :: xs => if p x then f x :: xs else x :: updateFirst xs p f

structure UnoJoinRes where
  success : Bool
  error : Option String
deriving DecidableEq, Repr

/-- JS `a || b` over nullable strings (empty string is falsy). -/
def strOr (a : Option String) (b : Option String) : Option String :=
  match a with
  | some v => if v == "" then b else some v
  | none => b

/-- `joinLobby(code, pid, nickname, avatarUrl, equippedBorder, equippedEffect)`
from src/src/uno/game.ts.  NOTE (reconnect path): the source calls
`this.bump(code)` — which stores a bumped copy — and then immediately
`this.lobbies.set(code, lobby)`, re-installing the original (un-bumped)
object; the registry therefore keeps the OLD version number on reconnect.
The returned state is the one the registry finally holds. -/
def joinLobby (env : UnoEnv) (s : UnoGameState) (pid nickname : String)
    (avatarUrl equippedBorder equippedEffect : Option String) :
    UnoJoinRes × UnoGameState :=
  if s.players.any (fun p => p.playerId == pid) then
    let players' := updateFirst s.players (fun p => p.playerId == pid) (fun ex =>
      { ex with
        isConnected := true,
        lastSeenAt := env.now,
        nickname := if nickname == "" then ex.nickname else nickname,
        avatarUrl := (match avatarUrl with | some a => some a | none => ex.avatarUrl),
        equippedBorder :=
          (match equippedBorder with | some b => some b | none => ex.equippedBorder),
        equippedEffect :=
          (match equippedEffect with | some e => some e | none => ex.equippedEffect) })
    (⟨true, none⟩, { s with players := players' })
  else if s.phase ≠ UnoPhase.lobby || s.gameStarted then
    (⟨false, some "Game already in progress"⟩, s)
  else if s.players.length ≥ s.maxPlayers then
    (⟨false, some "Lobby is full"⟩, s)
  else
    let nick := if nickname == "" then "Player" else nickname
    let player : UnoPlayer :=
      ⟨pid, s.players.length, nick, strOr avatarUrl none, true, env.now,
        equippedBorder, equippedEffect⟩
    let s' := { s with
      players := s.players ++ [player],
      hands := recSet s.hands pid (recGet s.hands pid) }
    let s' := addLog env s' "joined" (some pid) (nick ++ " joined the lobby")
    (⟨true, none⟩, bumpState env s')

/-- The public-room reset performed when the last participant departs. -/
def publicReset (env : UnoEnv) (l2 : UnoGameState) : UnoGameState :=
  { l2 with
    hostId := "public",
    players := [],
    phase := UnoPhase.lobby,
    gameStarted := false,
    hands := [],
    drawPile := [],
    discardPile := [],
    currentColor := none,
    pendingDraw := 0,
    drawnPlayable := none,
    mustCallUno := none,
    unoPrompt := none,
    winnerId := none,
    celebration := none,
    rewardIssued := false,
    actionLog := [],
    updatedAt := env.now,
    version := l2.version + 1 }

/-- `leaveLobby(code, pid)` from src/src/uno/game.ts; `none` means the lobby
was deleted from the registry. -/
def leaveLobby (env : UnoEnv) (s : UnoGameState) (pid : String) :
    Option UnoGameState :=
  match s.players.findIdx? (fun p => p.playerId == pid) with
  | none => some s
  | some idx =>
    let pNick := playerNick s idx
    let stored :=
      if !s.gameStarted then
        let players' := ((s.players.eraseIdx idx).enum).map
          (fun ip => { ip.2 with seatIndex := ip.1 })
        let hands' := recDel s.hands pid
        let nextHost :=
          if s.hostId == pid then
            (match players'.head? with
             | some q => if q.playerId == "" then s.hostId else q.playerId
             | none => s.hostId)
          else s.hostId
        let s1 := { s with players := players', hands := hands', hostId := nextHost }
        let s2 := addLog env s1 "left" (some pid) (pNick ++ " left the lobby")
        bumpState env s2
      else
        let players' := updateFirst s.players (fun p => p.playerId == pid)
          (fun p => { p with isConnected := false, lastSeenAt := env.now })
        let s1 := { s with players := players' }
        let s2 := addLog env s1 "left" (some pid) (pNick ++ " disconnected")
        bumpState env s2
    if stored.players.isEmpty || stored.players.all (fun p => !p.isConnected) then
      if stored.isPublic then some (publicReset env stored) else none
    else some stored

/-! ## UNO game start -/

def unoColors : List UnoColor := [.red, .green, .blue, .yellow]

/-- `makeDeckFaces()` from src/src/uno/game.ts: per color one 0, two of each
1..9, two Skip, two Reverse, two Draw2; four Wild and four Wild4. -/
def makeDeckFaces : List UnoCardFace :=
  (unoColors.flatMap (fun color =>
    [UnoCardFace.number color 0] ++
    ((List.range 9).flatMap (fun k =>
      [UnoCardFace.number color (k + 1), UnoCardFace.number color (k + 1)])) ++
    [UnoCardFace.skip color, UnoCardFace.skip color,
     UnoCardFace.reverse color, UnoCardFace.reverse color,
     UnoCardFace.draw2 color, UnoCardFace.draw2 color])) ++
  ((List.range 4).map (fun _ => UnoCardFace.wild)) ++
  ((List.range 4).map (fun _ => UnoCardFace.wild4))

/-- `instantiateDeck(faces)`: attach generated per-instance ids. -/
def instantiateDeck (mkId : Nat → String) (faces : List UnoCardFace) : List UnoCard :=
  faces.enum.map (fun nf => ⟨mkId (nf.1 + 1), nf.2⟩)

/-- The bounded starting-card loop in `startGame` (`for k < 30`): wilds are
shuffled back into the pile and another card is drawn. -/
def chooseStart (env : UnoEnv) : Nat → UnoGameState → UnoGameState × Option UnoCard
  | 0, t => (t, none)
  | k + 1, t =>
    let d := drawCards env.rand t 1
    match d.2 with
    | [] => (d.1, none)
    | c :: _ =>
      if isWild c.face then
        chooseStart env k { d.1 with drawPile := shuffle env.rand (d.1.drawPile ++ [c]) }
      else (d.1, some c)

/-- `startGame(code, requesterId)` from src/src/uno/game.ts.  On error the
registry is unchanged; on success the returned state is the stored one. -/
def startGame (env : UnoEnv) (s : UnoGameState) (requesterId : String) :
    Except String UnoGameState :=
  if !s.isPublic && s.hostId ≠ requesterId then .error "Only host can start the game"
  else if (s.players.filter (fun p => p.isConnected)).length < 2 then
    .error "Need at least 2 players"
  else if s.phase ≠ UnoPhase.lobby then .error "Game already started"
  else
    let deck := shuffle env.rand (instantiateDeck env.cardId makeDeckFaces)
    let temp : UnoGameState := { s with
      phase := UnoPhase.playing,
      gameStarted := true,
      drawPile := deck,
      discardPile := [],
      currentColor := none,
      direction := 1,
      winnerId := none,
      celebration := none,
      pendingDraw := 0,
      drawnPlayable := none,
      mustCallUno := none,
      unoPrompt := none,
      rewardIssued := false }
    let dealt := temp.players.foldl (fun acc p =>
      let d := drawCards env.rand acc.1 7
      (d.1, recSet acc.2 p.playerId d.2)) (temp, temp.hands)
    let temp := dealt.1
    let hands := dealt.2
    let chosen := chooseStart env 30 temp
    let withStart :=
      match chosen.2 with
      | some c => (chosen.1, some c)
      | none =>
        let d := drawCards env.rand chosen.1 1
        (d.1, d.2.head?)
    let temp := withStart.1
    let start := withStart.2
    let dealerIndex := (temp.dealerIndex + 1) % temp.players.length
    let direction : Int := 1
    let currentPlayerIndex := nextIndex dealerIndex direction temp.players.length 1
    let currentColor := start.bind (fun c => faceColor? c.face)
    let discardPile := match start with | some c => [c] | none => []
    let next : UnoGameState := { temp with
      hands := hands,
      dealerIndex := dealerIndex,
      direction := direction,
      currentPlayerIndex := currentPlayerIndex,
      currentColor := currentColor,
      discardPile := discardPile }
    let startLabel := match start with | some c => cardLabel c.face | none => "None"
    let next := addLog env next "started" none
      ("Game started — Starting card: " ++ startLabel)
    let next :=
      match start with
      | none => next
      | some c =>
        let n := next.players.length
        let cur := dealerIndex
        match c.face with
        | .skip _ =>
          let next := addLog env next "skipped" none "Start card effect: Skip"
          { next with currentPlayerIndex := nextIndex cur direction n 2 }
        | .draw2 _ =>
          let victimIdx := nextIndex cur direction n 1
          let victimPid := ((next.players[victimIdx]?).map (fun p => p.playerId)).getD ""
          let drawn := drawCards env.rand next 2
          let victimHand := recGet next.hands victimPid ++ drawn.2
          let next := drawn.1
          let next := { next with
            hands := recSet next.hands victimPid victimHand,
            currentPlayerIndex := nextIndex cur direction n 2 }
          addLog env next "drew" none
            ("Start card effect: " ++ playerNick next victimIdx ++
              " draws 2 and is skipped")
        | .reverse _ =>
          let dir2 : Int := -1
          if n == 2 then
            let next := addLog env next "reversed" none
              "Start card effect: Reverse (acts as Skip)"
            { next with direction := dir2, currentPlayerIndex := dealerIndex }
          else
            let next := addLog env next "reversed" none "Start card effect: Reverse"
            { next with
              direction := dir2,
              currentPlayerIndex := nextIndex dealerIndex dir2 n 1 }
        | _ => next
    .ok (bumpState env next)

/-! ## UNO per-viewer projection (`getClientState`) -/

structure UnoClientPlayer where
  playerId : String
  seatIndex : Nat
  nickname : String
  isConnected : Bool
  cardCount : Nat
deriving DecidableEq, Repr

/-- The synthetic placeholder hand an opponent sees: `n` cards with ids
`hidden_<pid>_<i>` and a fixed `wild` face — a function of the count only. -/
def hiddenHand (pid : String) (n : Nat) : List UnoCard :=
  (List.range n).map (fun i => ⟨"hidden_" ++ pid ++ "_" ++ toString i, UnoCardFace.wild⟩)

/-- The `hands` record of the client snapshot: the viewer's own hand verbatim,
every other player's hand replaced by placeholders. -/
def unoClientHands (s : UnoGameState) (viewer : String) :
    List (String × List UnoCard) :=
  s.players.map (fun p =>
    (p.playerId,
      if p.playerId == viewer then recGet s.hands p.playerId
      else hiddenHand p.playerId (recGet s.hands p.playerId).length))

structure UnoClientState where
  lobbyCode : String
  hostId : String
  players : List UnoClientPlayer
  phase : UnoPhase
  gameStarted : Bool
  dealerIndex : Nat
  direction : Int
  currentPlayerIndex : Nat
  hands : List (String × List UnoCard)
  drawPileCount : Nat
  discardPile : List UnoCard
  currentColor : Option UnoColor
  pendingDraw : Nat
  drawnPlayable : Option DrawnPlayable
  mustCallUno : Option String
  unoPrompt : Option UnoPrompt
  winnerId : Option String
  myPlayerId : String
  actionLog : List UnoLogEntry
  version : Nat
deriving DecidableEq, Repr

/-- `getClientState(code, requestingPlayerId)` from src/src/uno/game.ts. -/
def getClientState (s : UnoGameState) (viewer : String) : UnoClientState :=
  { lobbyCode := s.lobbyCode,
    hostId := s.hostId,
    players := s.players.map (fun p =>
      ⟨p.playerId, p.seatIndex, p.nickname, p.isConnected,
        (recGet s.hands p.playerId).length⟩),
    phase := s.phase,
    gameStarted := s.gameStarted,
    dealerIndex := s.dealerIndex,
    direction := s.direction,
    currentPlayerIndex := s.currentPlayerIndex,
    hands := unoClientHands s viewer,
    drawPileCount := s.drawPile.length,
    discardPile := s.discardPile,
    currentColor := s.currentColor,
    pendingDraw := s.pendingDraw,
    drawnPlayable := s.drawnPlayable,
    mustCallUno := s.mustCallUno,
    unoPrompt := s.unoPrompt,
    winnerId := s.winnerId,
    myPlayerId := viewer,
    actionLog := takeLast 50 s.actionLog,
    version := s.version }

/-! ## Poker data model (src/src/types.ts) -/

inductive Suit
  | hearts
  | diamonds
  | clubs
  | spades
deriving DecidableEq, Repr

inductive Rank
  | two
  | three
  | four
  | five
  | six
  | seven
  | eight
  | nine
  | ten
  | jack
  | queen
  | king
  | ace
deriving DecidableEq, Repr

structure Card where
  rank : Rank
  suit : Suit
deriving DecidableEq, Repr

/-- `RANK_VALUES` from src/unnamed/part_005. -/
def getRankValue (r : Rank) : Nat :=
  match r with
  | .two => 2
  | .three => 3
  | .four => 4
  | .five => 5
  | .six => 6
  | .seven => 7
  | .eight => 8
  | .nine => 9
  | .ten => 10
  | .jack => 11
  | .queen => 12
  | .king => 13
  | .ace => 14

/-! JS `array.sort(cmp)` is a stable sort by a numeric comparator; for a
consistent comparator the stable-sorted permutation is unique, so a stable
insertion sort is a faithful model. -/

def insertCmp {α : Type} (cmp : α → α → Int) (x : α) : List α → List α
  | [] => [x]
  | y :: ys => if cmp y x ≤ 0 then y :: insertCmp cmp x ys else x :: y :: ys

def sortJS {α : Type} (cmp : α → α → Int) (l : List α) : List α :=
  l.foldl (fun acc x => insertCmp cmp x acc) []

/-- `sortByRank(cards)`: descending by rank value (stable). -/
def sortByRank (cards : List Card) : List Card :=
  sortJS (fun a b => (getRankValue b.rank : Int) - getRankValue a.rank) cards

/-- One `groups.get(key) || []; push; set` step of `groupByRank` (a JS `Map`
keeps insertion order; setting an existing key keeps its position). -/
def groupUpdRank (groups : List (Rank × List Card)) (c : Card) :
    List (Rank × List Card) :=
  match groups with
  | [] => [(c.rank, [c])]
  | (r, g) :: rest =>
    if r == c.rank then (r, g ++ [c]) :: rest else (r, g) :: groupUpdRank rest c

def groupByRank (cards : List Card) : List (Rank × List Card) :=
  cards.foldl groupUpdRank []

def groupUpdSuit (groups : List (Suit × List Card)) (c : Card) :
    List (Suit × List Card) :=
  match groups with
  | [] => [(c.suit, [c])]
  | (s, g) :: rest =>
    if s == c.suit then (s, g ++ [c]) :: rest else (s, g) :: groupUpdSuit rest c

def groupBySuit (cards : List Card) : List (Suit × List Card) :=
  cards.foldl groupUpdSuit []

/-- `isFlush(cards)`: first suit with ≥ 5 cards, top five by rank. -/
def isFlush (cards : List Card) : Option (List Card) :=
  (groupBySuit cards).findSome? (fun sg =>
    if 5 ≤ sg.2.length then some ((sortByRank sg.2).take 5) else none)

def findCardByValue (cards : List Card) (v : Nat) : Option Card :=
  cards.find? (fun c => getRankValue c.rank == v)

/-- `isStraight(cards)` from src/unnamed/part_005, including the wheel. -/
def isStraight (cards : List Card) : Option (List Card) :=
  let uniqueRanks :=
    sortJS (fun (a b : Nat) => ((b : Int) - (a : Int)))
      ((cards.map (fun c => getRankValue c.rank)).dedup)
  if uniqueRanks.contains 14 && uniqueRanks.contains 2 && uniqueRanks.contains 3 &&
      uniqueRanks.contains 4 && uniqueRanks.contains 5 then
    let wheel := ([5, 4, 3, 2].filterMap (findCardByValue cards)) ++
      (cards.find? (fun c => c.rank == Rank.ace)).toList
    some wheel
  else
    (List.range (uniqueRanks.length - 4)).findSome? (fun i =>
      let seq := (uniqueRanks.drop i).take 5
      if seq.headD 0 - seq.getLastD 0 == 4 then
        let straightCards := seq.filterMap (findCardByValue cards)
        if straightCards.length == 5 then some straightCards else none
      else none)

/-- `isStraightFlush(cards)`: a straight within a ≥ 5-card suit group. -/
def isStraightFlush (cards : List Card) : Option (List Card) :=
  (groupBySuit cards).findSome? (fun sg =>
    if 5 ≤ sg.2.length then isStraight sg.2 else none)

/-- `isRoyalFlush(cards)`: a straight flush headed by an ace. -/
def isRoyalFlush (cards : List Card) : Option (List Card) :=
  match isStraightFlush cards with
  | some sf => if (sf.headD ⟨Rank.two, Suit.hearts⟩).rank = Rank.ace ∧
      getRankValue (sf.headD ⟨Rank.two, Suit.hearts⟩).rank = 14 then some sf else none
  | none => none

/-- `getFourOfAKind(cards)` (the kicker is an `Option`: with fewer than five
cards the JS code would read a property of `undefined`, which is unreachable
on real 7-card inputs). -/
def getFourOfAKind (cards : List Card) : Option (List Card × Option Card) :=
  (groupByRank cards).findSome? (fun rg =>
    if rg.2.length == 4 then
      some (rg.2, (sortByRank (cards.filter (fun c => c.rank ≠ rg.1))).head?)
    else none)

def groupRankValue (g : List Card) : Nat :=
  ((g.head?).map (fun c => getRankValue c.rank)).getD 0

/-- `getFullHouse(cards)` from src/unnamed/part_005, translated exactly: the
first loop grabs the FIRST rank group with ≥ 3 cards as trips (the
highest-trips fallback below it is dead code, since the loop fills `trips`
whenever any ≥ 3 group exists), and every other ≥ 2 group contributes a
pair; the best pair is chosen by a descending stable sort. -/
def getFullHouse (cards : List Card) : Option (List Card × List Card) :=
  let rankGroups := groupByRank cards
  let tp := rankGroups.foldl (fun acc g =>
    if 3 ≤ g.2.length && acc.1.length == 0 then (g.2.take 3, acc.2)
    else if 2 ≤ g.2.length then (acc.1, acc.2 ++ [g.2.take 2])
    else acc) (([] : List Card), ([] : List (List Card)))
  let trips := tp.1
  let pairs := tp.2
  if trips.length == 0 then
    let allTrips := rankGroups.filterMap (fun g =>
      if 3 ≤ g.2.length then some g.2 else none)
    if 2 ≤ allTrips.length then
      let sorted := sortJS
        (fun a b => (groupRankValue b : Int) - groupRankValue a) allTrips
      match sorted with
      | a :: b :: _ => some (a.take 3, b.take 2)
      | _ => none
    else none
  else if trips.length == 3 && 0 < pairs.length then
    let sortedPairs := sortJS
      (fun a b => (groupRankValue b : Int) - groupRankValue a) pairs
    match sortedPairs.head? with
    | some pr => some (trips, pr)
    | none => none
  else none

/-- `getThreeOfAKind(cards)`. -/
def getThreeOfAKind (cards : List Card) : Option (List Card × List Card) :=
  (groupByRank cards).findSome? (fun rg =>
    if rg.2.length == 3 then
      some (rg.2, (sortByRank (cards.filter (fun c => c.rank ≠ rg.1))).take 2)
    else none)

/-- `getTwoPair(cards)`. -/
def getTwoPair (cards : List Card) : Option (List (List Card) × Option Card) :=
  let pairs := (groupByRank cards).filterMap (fun g =>
    if 2 ≤ g.2.length then some (g.2.take 2) else none)
  if 2 ≤ pairs.length then
    let sortedPairs := sortJS
      (fun a b => (groupRankValue b : Int) - groupRankValue a) pairs
    let usedRanks := (sortedPairs.take 2).filterMap (fun g => (g.head?).map (fun c => c.rank))
    let kicker := (sortByRank (cards.filter (fun c => !usedRanks.contains c.rank))).head?
    some (sortedPairs.take 2, kicker)
  else none

/-- `getOnePair(cards)`. -/
def getOnePair (cards : List Card) : Option (List Card × List Card) :=
  (groupByRank cards).findSome? (fun rg =>
    if rg.2.length == 2 then
      some (rg.2, (sortByRank (cards.filter (fun c => c.rank ≠ rg.1))).take 3)
    else none)

structure HandRank where
  rank : Nat
  name : String
  tiebreakers : List Nat
  cards : List Card
deriving DecidableEq, Repr

/-- `evaluateHand(holeCards, communityCards)` from src/unnamed/part_005. -/
def evaluateHand (holeCards communityCards : List Card) : HandRank :=
  let allCards := holeCards ++ communityCards
  match isRoyalFlush allCards with
  | some rf => ⟨10, "Royal Flush", [14], rf⟩
  | none =>
  match isStraightFlush allCards with
  | some sf =>
    ⟨9, "Straight Flush", [getRankValue (sf.headD ⟨Rank.two, Suit.hearts⟩).rank], sf⟩
  | none =>
  match getFourOfAKind allCards with
  | some fk =>
    ⟨8, "Four of a Kind",
      [groupRankValue fk.1, ((fk.2.map (fun c => getRankValue c.rank)).getD 0)],
      fk.1 ++ fk.2.toList⟩
  | none =>
  match getFullHouse allCards with
  | some fh =>
    ⟨7, "Full House", [groupRankValue fh.1, groupRankValue fh.2], fh.1 ++ fh.2⟩
  | none =>
  match isFlush allCards with
  | some fl => ⟨6, "Flush", fl.map (fun c => getRankValue c.rank), fl⟩
  | none =>
  match isStraight allCards with
  | some st =>
    let highCard :=
      match st with
      | c0 :: c1 :: _ =>
        if c0.rank = Rank.ace ∧ c1.rank = Rank.five then 5 else getRankValue c0.rank
      | [c0] => getRankValue c0.rank
      | [] => 0
    ⟨5, "Straight", [highCard], st⟩
  | none =>
  match getThreeOfAKind allCards with
  | some tk =>
    ⟨4, "Three of a Kind",
      groupRankValue tk.1 :: tk.2.map (fun c => getRankValue c.rank),
      tk.1 ++ tk.2⟩
  | none =>
  match getTwoPair allCards with
  | some tpk =>
    ⟨3, "Two Pair",
      [groupRankValue (tpk.1.headD []), groupRankValue ((tpk.1.drop 1).headD []),
        ((tpk.2.map (fun c => getRankValue c.rank)).getD 0)],
      tpk.1.flatten ++ tpk.2.toList⟩
  | none =>
  match getOnePair allCards with
  | some opk =>
    ⟨2, "One Pair",
      groupRankValue opk.1 :: opk.2.map (fun c => getRankValue c.rank),
      opk.1 ++ opk.2⟩
  | none =>
  let highCards := (sortByRank allCards).take 5
  ⟨1, "High Card", highCards.map (fun c => getRankValue c.rank), highCards⟩

/-- The tiebreaker loop of `compareHands` (pairwise first difference). -/
def compareTie : List Nat → List Nat → Int
  | [], _ => 0
  | _, [] => 0
  | a :: as_, b :: bs => if a ≠ b then (a : Int) - b else compareTie as_ bs

/-- `compareHands(hand1, hand2)` from src/unnamed/part_005. -/
def compareHands (h1 h2 : HandRank) : Int :=
  if h1.rank ≠ h2.rank then (h1.rank : Int) - h2.rank
  else compareTie h1.tiebreakers h2.tiebreakers

structure PlayerHand where
  pid : String
  hand : HandRank
deriving DecidableEq, Repr

/-- `findWinners(playerHands)` from src/unnamed/part_005: stable sort by
descending strength (ties keep input order), then all entries tied with the
strongest. -/
def findWinners (playerHands : List PlayerHand) : List String :=
  match playerHands with
  | [] => []
  | [p] => [p.pid]
  | _ =>
    let sorted := sortJS (fun a b => compareHands b.hand a.hand) playerHands
    match sorted.head? with
    | none => []
    | some best =>
      (sorted.filter (fun p => compareHands p.hand best.hand == 0)).map
        (fun p => p.pid)

/-! ## Poker engine state (the parts the claims touch, src/unnamed/part_005) -/

structure Pot where
  amount : Nat
  eligiblePlayerIds : List String
deriving DecidableEq, Repr

structure PokerPlayer where
  playerId : String
  seatIndex : Nat
  nickname : String
  stack : Nat
  currentBet : Nat
  holeCards : List Card
  folded : Bool
  allIn : Bool
  isConnected : Bool
deriving DecidableEq, Repr

inductive Street
  | preflop
  | flop
  | turn
  | river
  | showdown
deriving DecidableEq, Repr

structure PokerGameState where
  lobbyCode : String
  hostId : String
  players : List PokerPlayer
  gameStarted : Bool
  deck : List Card
  communityCards : List Card
  pots : List Pot
  currentBet : Nat
  minRaise : Nat
  dealerIndex : Nat
  smallBlindIndex : Nat
  bigBlindIndex : Nat
  currentPlayerIndex : Nat
  street : Street
  smallBlind : Nat
  bigBlind : Nat
  handNumber : Nat
  lastRaiseAmount : Nat
deriving DecidableEq, Repr

/-- `awardPot(code, winnerIds)` from src/unnamed/part_005: each winner gets
`floor(totalPot / k)` and the FIRST entry of `winnerIds` additionally
receives the remainder; the pots are then reset. -/
def awardPot (lobby : PokerGameState) (winnerIds : List String) : PokerGameState :=
  let totalPot := (lobby.pots.map (fun p => p.amount)).sum
  let share := totalPot / winnerIds.length
  let remainder := totalPot % winnerIds.length
  let players' := winnerIds.enum.foldl (fun ps iw =>
    updateFirst ps (fun p => p.playerId == iw.2) (fun p =>
      { p with stack := p.stack + share + (if iw.1 == 0 then remainder else 0) }))
    lobby.players
  { lobby with players := players', pots := [⟨0, []⟩] }

/-- The pure core of `goToShowdown(code)`: evaluate all non-folded hands,
find the winners and distribute the pot. -/
def showdownAward (lobby : PokerGameState) : PokerGameState :=
  let lobby := { lobby with street := Street.showdown }
  let active := lobby.players.filter (fun p => !p.folded)
  let playerHands := active.map (fun p =>
    PlayerHand.mk p.playerId (evaluateHand p.holeCards lobby.communityCards))
  let winnerIds := findWinners playerHands
  awardPot lobby winnerIds

/-! ## Poker per-viewer projection (`PokerGame.getClientState`) -/

structure PokerClientPlayer where
  playerId : String
  seatIndex : Nat
  stack : Nat
  currentBet : Nat
  folded : Bool
  allIn : Bool
  isConnected : Bool
  holeCards : Option (List Card)
deriving DecidableEq, Repr

/-- One player's entry in `PokerGame.getClientState`: hole cards are
revealed only to their owner, or to everyone for non-folded players at
showdown; otherwise they are `null`. -/
def pokerClientPlayer (lobby : PokerGameState) (viewer : String)
    (p : PokerPlayer) : PokerClientPlayer :=
  ⟨p.playerId, p.seatIndex, p.stack, p.currentBet, p.folded, p.allIn, p.isConnected,
    if p.playerId == viewer || ((lobby.street == Street.showdown) && !p.folded) then
      some p.holeCards
    else none⟩

/-- The `clientPlayers` mapping of `PokerGame.getClientState`. -/
def pokerClientPlayers (lobby : PokerGameState) (viewer : String) :
    List PokerClientPlayer :=
  lobby.players.map (pokerClientPlayer lobby viewer)

/-! ## Session layer: the multi-lobby guard (src/src/index.ts) -/

inductive GameType
  | poker
  | uno
deriving DecidableEq, Repr

structure ActiveLobby where
  gameType : GameType
  lobbyCode : String
deriving DecidableEq, Repr

/-- `userActiveLobby.get(user.id)`. -/
def lookupActive (m : List (String × ActiveLobby)) (userId : String) :
    Option ActiveLobby :=
  ((m.find? (fun e => e.1 == userId)).map (fun e => e.2))

/-- The `createLobby` multi-lobby guard (src/src/index.ts lines 421-426):
the command proceeds only when the user has NO active lobby at all. -/
def createLobbyGuardAllows (m : List (String × ActiveLobby)) (userId : String) :
    Bool :=
  (lookupActive m userId).isNone

/-- The `joinLobby` multi-lobby guard (src/src/index.ts lines 475-484): the
command proceeds when the user has no active lobby, or when the named lobby
is exactly the active one (same game type AND same code) — a reconnect. -/
def joinLobbyGuardAllows (m : List (String × ActiveLobby)) (userId : String)
    (gt : GameType) (code : String) : Bool :=
  match lookupActive m userId with
  | none => true
  | some e => e.gameType == gt && e.lobbyCode == code

/-! ## Derived quantities used by the properties -/

/-- Number of cards held in all hands. -/
def handsCount (m : List (String × List UnoCard)) : Nat :=
  (m.map (fun p => p.2.length)).sum

/-- Total number of UNO cards in play: all hands + draw pile + discard pile. -/
def totalCards (s : UnoGameState) : Nat :=
  handsCount s.hands + s.drawPile.length + s.discardPile.length

/-- The acceptance condition of a `play` action, read off the guards of
`applyPlay`: the card must be in the hand; when a drawn-playable is pending
for this player it must be that card; it must be playable on the top face and
current color; a Wild4 is refused while the hand holds the current color; and
wild cards require a chosen color. -/
def playAccepted (s : UnoGameState) (pid cardId : String)
    (chosenColor : Option UnoColor) : Bool :=
  let hand := recGet s.hands pid
  match hand.findIdx? (fun c => c.id == cardId) with
  | none => false
  | some ci =>
    match hand[ci]? with
    | none => false
    | some card =>
      !(match s.drawnPlayable with
        | some d => d.playerId == pid && d.cardId != cardId
        | none => false) &&
      isPlayableCard card.face ((s.discardPile.getLast?).map (fun c => c.face))
        s.currentColor &&
      !(card.face == UnoCardFace.wild4 && s.currentColor.isSome &&
        hasColor hand ((s.currentColor).getD UnoColor.red)) &&
      !(isWild card.face && chosenColor.isNone)

/-- Stack of the (first) player with the given id in a player list. -/
def stackIn (ps : List PokerPlayer) (pid : String) : Nat :=
  (((ps.find? (fun p => p.playerId == pid)).map (fun p => p.stack))).getD 0

/-- Stack of the (first) player with the given id, read from the state. -/
def stackOf (g : PokerGameState) (pid : String) : Nat :=
  stackIn g.players pid

/-! ## Concrete fixtures (used by counterexamples and witnesses) -/

def env0 : UnoEnv :=
  ⟨100, "log1", fun _ => 0, 50, 50, fun n => "card" ++ toString n⟩

def mkUnoPlayer (pid : String) (seat : Nat) : UnoPlayer :=
  ⟨pid, seat, pid, none, true, 0, none, none⟩

/-- A two-player UNO lobby mid-game: P1 to act, top of discard is Red 5,
current color red, P0 owes an UNO call.  P1 holds Red 3, a Wild4 and a
Wild. -/
def unoS0 : UnoGameState :=
  { lobbyCode := "UNO001", hostId := "P0",
    players := [mkUnoPlayer "P0" 0, mkUnoPlayer "P1" 1],
    isPublic := false, maxPlayers := 10,
    phase := UnoPhase.playing, gameStarted := true,
    dealerIndex := 0, direction := 1, currentPlayerIndex := 1,
    hands := [("P0", [⟨"c1", UnoCardFace.number UnoColor.green 5⟩]),
              ("P1", [⟨"c2", UnoCardFace.number UnoColor.red 3⟩,
                      ⟨"cw4", UnoCardFace.wild4⟩,
                      ⟨"cw", UnoCardFace.wild⟩])],
    drawPile := [⟨"d1", UnoCardFace.number UnoColor.blue 1⟩,
                 ⟨"d2", UnoCardFace.number UnoColor.yellow 2⟩,
                 ⟨"d3", UnoCardFace.number UnoColor.green 7⟩],
    discardPile := [⟨"t0", UnoCardFace.number UnoColor.red 5⟩],
    currentColor := some UnoColor.red,
    pendingDraw := 0, drawnPlayable := none,
    mustCallUno := some "P0", unoPrompt := some ⟨"P0", 40, 40, 5⟩,
    winnerId := none, celebration := none, rewardIssued := false, actionLog := [],
    createdAt := 0, updatedAt := 0, version := 7 }

/-- `unoS0` after P1 drew the playable Wild (`drawnPlayable` pending). -/
def unoS1 : UnoGameState :=
  { unoS0 with
    mustCallUno := none,
    unoPrompt := none,
    drawnPlayable := some ⟨"P1", "cw"⟩ }

def mkPokerPlayer (pid : String) (seat : Nat) (hole : List Card) : PokerPlayer :=
  ⟨pid, seat, pid, 1000, 0, hole, false, false, true⟩

/-- Two players at showdown with identical two pair (kings and queens, four
kicker), pot 201, dealer seat 0. -/
def pokerS0 : PokerGameState :=
  { lobbyCode := "ABC123", hostId := "P0",
    players := [mkPokerPlayer "P0" 0 [⟨Rank.three, Suit.diamonds⟩, ⟨Rank.four, Suit.clubs⟩],
                mkPokerPlayer "P1" 1 [⟨Rank.three, Suit.hearts⟩, ⟨Rank.four, Suit.spades⟩]],
    gameStarted := true, deck := [],
    communityCards := [⟨Rank.king, Suit.spades⟩, ⟨Rank.king, Suit.hearts⟩,
      ⟨Rank.queen, Suit.spades⟩, ⟨Rank.queen, Suit.hearts⟩, ⟨Rank.two, Suit.clubs⟩],
    pots := [⟨201, ["P0", "P1"]⟩],
    currentBet := 0, minRaise := 10, dealerIndex := 0, smallBlindIndex := 0,
    bigBlindIndex := 1, currentPlayerIndex := 0, street := Street.river,
    smallBlind := 5, bigBlind := 10, handNumber := 1, lastRaiseAmount := 10 }

/-- Hole cards of the full-house failing input: a pair of twos. -/
def c2Hole : List Card := [⟨Rank.two, Suit.spades⟩, ⟨Rank.two, Suit.hearts⟩]

/-- Community cards of the full-house failing input: a third two, three
kings and a five. -/
def c2Community : List Card :=
  [⟨Rank.two, Suit.diamonds⟩, ⟨Rank.king, Suit.spades⟩, ⟨Rank.king, Suit.hearts⟩,
   ⟨Rank.king, Suit.diamonds⟩, ⟨Rank.five, Suit.clubs⟩]

/-! # Theorems -/

set_option maxRecDepth 8000

/-! ## Helper lemmas about `clearUno` and `turnAction` -/

theorem clearUno_of_none {s : UnoGameState} (h : s.mustCallUno = none) :
    clearUno s = s := by
  simp [clearUno, h]

theorem clearUno_drawnPlayable (s : UnoGameState) :
    (clearUno s).drawnPlayable = s.drawnPlayable := by
  unfold clearUno; split <;> rfl

theorem clearUno_hands (s : UnoGameState) : (clearUno s).hands = s.hands := by
  unfold clearUno; split <;> rfl

theorem turnAction_rejected (env : UnoEnv) (s : UnoGameState) (pid : String)
    (k : UnoGameState → Except String UnoGameState)
    (h : (turnAction env s pid k).1.success = false) :
    (turnAction env s pid k).2 = s ∨ (turnAction env s pid k).2 = clearUno s := by
  by_cases hc : isCurrentPlayer s pid
  · rcases hk : k (clearUno s) with e | st
    · right; simp [turnAction, hc, hk]
    · exfalso; simp [turnAction, hc, hk] at h
  · left; simp [turnAction, hc]

theorem turnAction_success (env : UnoEnv) (s : UnoGameState) (pid : String)
    (k : UnoGameState → Except String UnoGameState)
    (hc : isCurrentPlayer s pid = true) :
    (turnAction env s pid k).1.success = (k (clearUno s)).isOk := by
  simp only [turnAction, hc]
  rcases hk : k (clearUno s) with e | st <;> simp [hk, Except.isOk, Except.toBool]

theorem applyPlay_isOk (env : UnoEnv) (s : UnoGameState) (pid cid : String)
    (col : Option UnoColor) :
    (applyPlay env s pid cid col).isOk = playAccepted s pid cid col := by
  unfold applyPlay playAccepted
  rcases hfi : (recGet s.hands pid).findIdx? (fun c => c.id == cid) with _ | ci
  · simp only [hfi]; rfl
  · simp only [hfi]
    rcases hc : (recGet s.hands pid)[ci]? with _ | card
    · simp only [hc]
      split <;> rfl
    · simp only [hc]
      rcases hg : (match s.drawnPlayable with
          | some d => d.playerId == pid && d.cardId != cid
          | none => false) with _ | _
      · rw [hg]
        simp only [Bool.false_eq_true, if_false, Bool.not_false, Bool.true_and]
        by_cases h1 : isPlayableCard card.face
            (Option.map (fun c => c.face) s.discardPile.getLast?) s.currentColor
        · simp only [h1, Bool.not_true, Bool.false_eq_true, if_false, Bool.true_and]
          by_cases h2 : (card.face == UnoCardFace.wild4 && s.currentColor.isSome &&
              hasColor (recGet s.hands pid) (s.currentColor.getD UnoColor.red)) = true
          · simp [h2, Except.isOk, Except.toBool]
          · rw [Bool.not_eq_true] at h2
            simp only [h2, Bool.false_eq_true, if_false, Bool.not_false, Bool.true_and]
            by_cases h3 : (isWild card.face && col.isNone) = true
            · simp [h3, Except.isOk, Except.toBool]
            · rw [Bool.not_eq_true] at h3
              simp only [h3, Bool.false_eq_true, if_false, Bool.not_false]
              rfl
        · simp only [Bool.not_eq_true] at h1
          simp [h1, Except.isOk, Except.toBool]
      · rw [hg]
        rfl

theorem playAccepted_clearUno (s : UnoGameState) (pid cid : String)
    (col : Option UnoColor) :
    playAccepted (clearUno s) pid cid col = playAccepted s pid cid col := by
  unfold clearUno; split <;> rfl

/-! ## Helper lemmas: card-count bookkeeping -/

theorem listSwap_length {α : Type} (a : List α) (i j : Nat) :
    (listSwap a i j).length = a.length := by
  unfold listSwap
  rcases h1 : a[i]? with _ | x <;> rcases h2 : a[j]? with _ | y <;> simp

theorem shuffleAux_length {α : Type} (rand : Nat → Nat) (n : Nat) :
    ∀ (a : List α), (shuffleAux rand n a).length = a.length := by
  induction n with
  | zero => intro a; rfl
  | succ k ih =>
    intro a
    simp only [shuffleAux]
    rw [ih, listSwap_length]

theorem shuffle_length {α : Type} (rand : Nat → Nat) (arr : List α) :
    (shuffle rand arr).length = arr.length :=
  shuffleAux_length rand (arr.length - 1) arr

theorem refillIfNeeded_length (rand : Nat → Nat) (dp dc : List UnoCard) :
    (refillIfNeeded rand dp dc).1.length + (refillIfNeeded rand dp dc).2.length =
      dp.length + dc.length := by
  unfold refillIfNeeded
  split_ifs with h1 h2
  · rfl
  · rfl
  · rcases hl : dc.getLast? with _ | top
    · rfl
    · simp only [shuffle_length, List.length_dropLast, List.length_cons,
        List.length_nil]
      omega

theorem drawCardsAux_length (rand : Nat → Nat) (n : Nat) :
    ∀ (dp dc out : List UnoCard),
      (drawCardsAux rand n dp dc out).1.length +
        (drawCardsAux rand n dp dc out).2.1.length +
        (drawCardsAux rand n dp dc out).2.2.length =
      dp.length + dc.length + out.length := by
  induction n with
  | zero => intro dp dc out; rfl
  | succ k ih =>
    intro dp dc out
    have hr := refillIfNeeded_length rand dp dc
    simp only [drawCardsAux]
    rcases hc : (refillIfNeeded rand dp dc).1 with _ | ⟨c, rest⟩
    · simp only [hc] at hr ⊢
      simp only [List.length_nil] at hr ⊢
      omega
    · simp only [hc] at hr ⊢
      rw [ih]
      simp only [List.length_cons, List.length_append, List.length_nil] at hr ⊢
      omega

theorem drawCards_piles (rand : Nat → Nat) (s : UnoGameState) (count : Nat) :
    (drawCards rand s count).1.drawPile.length +
      (drawCards rand s count).1.discardPile.length +
      (drawCards rand s count).2.length =
    s.drawPile.length + s.discardPile.length := by
  have h := drawCardsAux_length rand count s.drawPile s.discardPile []
  simp only [List.length_nil, Nat.add_zero] at h
  exact h

theorem drawCards_hands (rand : Nat → Nat) (s : UnoGameState) (count : Nat) :
    (drawCards rand s count).1.hands = s.hands := rfl

theorem drawCardsAux_count (rand : Nat → Nat) (n : Nat) :
    ∀ (dp dc out : List UnoCard),
      (drawCardsAux rand n dp dc out).2.2.length ≤ out.length + n := by
  induction n with
  | zero => intro dp dc out; simp [drawCardsAux]
  | succ k ih =>
    intro dp dc out
    simp only [drawCardsAux]
    rcases hc : (refillIfNeeded rand dp dc).1 with _ | ⟨c, rest⟩
    · simp
    · calc (drawCardsAux rand k rest (refillIfNeeded rand dp dc).2 (out ++ [c])).2.2.length
          ≤ (out ++ [c]).length + k := ih rest _ (out ++ [c])
        _ ≤ out.length + (k + 1) := by simp; omega

theorem drawCards_count (rand : Nat → Nat) (s : UnoGameState) (n : Nat) :
    (drawCards rand s n).2.length ≤ n := by
  have h := drawCardsAux_count rand n s.drawPile s.discardPile []
  simpa using h

theorem recGet_cons (k' : String) (v' : List UnoCard)
    (tl : List (String × List UnoCard)) (k : String) :
    recGet ((k', v') :: tl) k = if (k' == k) = true then v' else recGet tl k := by
  unfold recGet
  by_cases hk : (k' == k) = true
  · rw [List.find?_cons_of_pos]
    · simp [hk]
    · simpa using hk
  · rw [List.find?_cons_of_neg]
    · simp [hk]
    · simpa using hk

theorem handsCount_recSet (m : List (String × List UnoCard)) (k : String)
    (v : List UnoCard) :
    handsCount (recSet m k v) + (recGet m k).length = handsCount m + v.length := by
  induction m with
  | nil => simp [recSet, recGet, handsCount]
  | cons hd tl ih =>
    rcases hd with ⟨k', v'⟩
    by_cases hk : (k' == k) = true
    · simp only [recSet, hk, if_true, recGet_cons, handsCount, List.map_cons,
        List.sum_cons]
      omega
    · simp only [recSet, hk, recGet_cons, if_false, Bool.false_eq_true,
        handsCount, List.map_cons, List.sum_cons] at ih ⊢
      omega

theorem handsCount_recSet_append (m : List (String × List UnoCard)) (k : String)
    (d : List UnoCard) :
    handsCount (recSet m k (recGet m k ++ d)) = handsCount m + d.length := by
  have h := handsCount_recSet m k (recGet m k ++ d)
  rw [List.length_append] at h
  omega

theorem totalCards_addLog (env : UnoEnv) (s : UnoGameState) (t : String)
    (p : Option String) (txt : String) :
    totalCards (addLog env s t p txt) = totalCards s := rfl

theorem totalCards_bumpState (env : UnoEnv) (s : UnoGameState) :
    totalCards (bumpState env s) = totalCards s := rfl

theorem totalCards_clearUno (s : UnoGameState) :
    totalCards (clearUno s) = totalCards s := by
  unfold clearUno; split <;> rfl

theorem totalCards_drawForNext (env : UnoEnv) (t : UnoGameState)
    (cur : Nat) (dir : Int) (n amount : Nat) :
    totalCards (drawForNext env t cur dir n amount) = totalCards t := by
  unfold drawForNext
  have hp := drawCards_piles env.rand t amount
  simp only [totalCards, addLog, drawCards_hands, handsCount_recSet_append]
  omega

theorem totalCards_drawInto (rand : Nat → Nat) (t : UnoGameState) (v : String)
    (cnt : Nat) :
    totalCards { (drawCards rand t cnt).1 with
      hands := recSet (drawCards rand t cnt).1.hands v
        (recGet (drawCards rand t cnt).1.hands v ++ (drawCards rand t cnt).2) } =
    totalCards t := by
  have hp := drawCards_piles rand t cnt
  simp only [totalCards, drawCards_hands, handsCount_recSet_append]
  omega

/-! ## Helper lemmas: conservation of each UNO operation -/

theorem applyCallUno_total (env : UnoEnv) (s : UnoGameState) (pid : String)
    (s' : UnoGameState) (h : applyCallUno env s pid = Except.ok s') :
    totalCards s' = totalCards s := by
  unfold applyCallUno at h
  split_ifs at h
  injection h with h
  subst h
  rfl

theorem applyCatchUno_total (env : UnoEnv) (s : UnoGameState) (catcher : String)
    (s' : UnoGameState) (h : applyCatchUno env s catcher = Except.ok s') :
    totalCards s' = totalCards s := by
  unfold applyCatchUno at h
  split at h
  · cases h
  · split_ifs at h
    injection h with h
    subst h
    rw [totalCards_bumpState, totalCards_drawInto, totalCards_addLog]
    rfl

theorem applyPass_total (env : UnoEnv) (s : UnoGameState) (pid : String)
    (s' : UnoGameState) (h : applyPass env s pid = Except.ok s') :
    totalCards s' = totalCards s := by
  unfold applyPass at h
  split at h
  · cases h
  · split_ifs at h
    injection h with h
    subst h
    rfl

theorem applyDraw_total (env : UnoEnv) (s : UnoGameState) (pid : String)
    (s' : UnoGameState) (h : applyDraw env s pid = Except.ok s') :
    totalCards s' = totalCards s := by
  simp only [applyDraw] at h
  split_ifs at h with h1 h2
  rcases hd : (drawCards env.rand s 1).2 with _ | ⟨card, rest⟩
  · rw [hd] at h; cases h
  · rw [hd] at h
    dsimp only at h
    have hp := drawCards_piles env.rand s 1
    rw [hd] at hp
    have hset := handsCount_recSet s.hands pid (recGet s.hands pid ++ [card])
    rw [List.length_append] at hset
    simp only [List.length_cons, List.length_nil] at hset hp
    have hc1 := drawCards_count env.rand s 1
    rw [hd] at hc1
    simp only [List.length_cons] at hc1
    split_ifs at h <;>
    · injection h with h
      subst h
      simp only [totalCards, addLog, drawCards_hands]
      omega

theorem totalCards_playRemoveCard (s : UnoGameState) (pid : String)
    (card : UnoCard) (ci : Nat) (hci : ci < (recGet s.hands pid).length) :
    totalCards (playRemoveCard s pid card ci) = totalCards s := by
  unfold playRemoveCard
  have hrs := handsCount_recSet s.hands pid ((recGet s.hands pid).eraseIdx ci)
  have hel : ((recGet s.hands pid).eraseIdx ci).length =
      (recGet s.hands pid).length - 1 := by
    rw [List.length_eraseIdx]
    simp [hci]
  simp only [totalCards, List.length_append, List.length_cons, List.length_nil]
  omega

theorem totalCards_playSetColor (env : UnoEnv) (s : UnoGameState) (pid : String)
    (card : UnoCard) (col : Option UnoColor) (nick : String) :
    totalCards (playSetColor env s pid card col nick) = totalCards s := by
  unfold playSetColor; split <;> rfl

theorem totalCards_playMaybeUno (env : UnoEnv) (s : UnoGameState) (pid : String)
    (afterCount : Nat) :
    totalCards (playMaybeUno env s pid afterCount) = totalCards s := by
  unfold playMaybeUno; split <;> rfl

theorem totalCards_playFinish (env : UnoEnv) (s : UnoGameState)
    (pid code nick : String) :
    totalCards (playFinish env s pid code nick) = totalCards s := rfl

theorem totalCards_playEffect (env : UnoEnv) (s : UnoGameState) (card : UnoCard) :
    totalCards (playEffect env s card) = totalCards s := by
  unfold playEffect
  rcases card with ⟨id, face⟩
  cases face with
  | number c v => rfl
  | skip c => rfl
  | reverse c => dsimp only; split <;> rfl
  | draw2 c => rw [totalCards_drawForNext, totalCards_addLog]
  | wild => rfl
  | wild4 => rw [totalCards_drawForNext, totalCards_addLog]

theorem totalCards_applyPlayOk (env : UnoEnv) (s : UnoGameState) (pid : String)
    (card : UnoCard) (ci : Nat) (col : Option UnoColor)
    (hci : ci < (recGet s.hands pid).length) :
    totalCards (applyPlayOk env s pid card ci col) = totalCards s := by
  unfold applyPlayOk
  dsimp only
  split
  · rw [totalCards_playFinish, totalCards_playMaybeUno, totalCards_playSetColor,
      totalCards_playRemoveCard s pid card ci hci]
  · rw [totalCards_playEffect, totalCards_playMaybeUno, totalCards_playSetColor,
      totalCards_playRemoveCard s pid card ci hci]

theorem applyPlay_total (env : UnoEnv) (s : UnoGameState) (pid cid : String)
    (col : Option UnoColor) (s' : UnoGameState)
    (h : applyPlay env s pid cid col = Except.ok s') :
    totalCards s' = totalCards s := by
  unfold applyPlay at h
  dsimp only at h
  repeat' split at h
  all_goals try cases h
  rename_i ci hfi hguard x card hc h1 h2 h3
  have hci : ci < (recGet s.hands pid).length := by
    by_contra hge
    rw [List.getElem?_eq_none (Nat.le_of_not_lt hge)] at hc
    cases hc
  exact totalCards_applyPlayOk env s pid card ci col hci

theorem turnAction_total (env : UnoEnv) (s : UnoGameState) (pid : String)
    (k : UnoGameState → Except String UnoGameState)
    (hk : ∀ s', k (clearUno s) = Except.ok s' →
      totalCards s' = totalCards (clearUno s))
    (h : (turnAction env s pid k).1.success = true) :
    totalCards (turnAction env s pid k).2 = totalCards s := by
  by_cases hc : isCurrentPlayer s pid
  · rcases hres : k (clearUno s) with e | st
    · exfalso; simp [turnAction, hc, hres] at h
    · have ht := hk st hres
      simp only [turnAction, hc, if_true, hres, Bool.not_true, Bool.false_eq_true,
        if_false]
      rw [totalCards_bumpState, ht, totalCards_clearUno]
  · exfalso; simp [turnAction, hc] at h

/-! ## Helper lemmas: pot distribution -/

theorem stackIn_updateFirst_add (ps : List PokerPlayer) (w : String) (a b : Nat) :
    stackIn (updateFirst ps (fun p => p.playerId == w)
        (fun p => { p with stack := p.stack + a + b })) w =
      stackIn ps w +
        (if ps.any (fun p => p.playerId == w) then a + b else 0) := by
  induction ps with
  | nil => simp [updateFirst, stackIn]
  | cons hd tl ih =>
    by_cases hw : (hd.playerId == w) = true
    · simp [updateFirst, stackIn, hw, List.find?_cons, List.any_cons]
      omega
    · simp only [updateFirst, hw, Bool.false_eq_true, if_false]
      simp only [stackIn, List.find?_cons, hw] at ih ⊢
      simp only [List.any_cons, hw, Bool.false_or]
      exact ih

theorem stackIn_updateFirst_ne (ps : List PokerPlayer) (w pid : String)
    (a b : Nat) (hne : pid ≠ w) :
    stackIn (updateFirst ps (fun p => p.playerId == w)
        (fun p => { p with stack := p.stack + a + b })) pid = stackIn ps pid := by
  induction ps with
  | nil => simp [updateFirst]
  | cons hd tl ih =>
    by_cases hw : (hd.playerId == w) = true
    · have hpid : (hd.playerId == pid) = false := by
        have : hd.playerId = w := by simpa using hw
        simp [this, Ne.symm hne]
      simp [updateFirst, stackIn, hw, List.find?_cons, hpid]
    · simp only [updateFirst, hw, Bool.false_eq_true, if_false]
      by_cases hp : (hd.playerId == pid) = true
      · simp [stackIn, List.find?_cons, hp]
      · simp only [stackIn, List.find?_cons, hp] at ih ⊢
        exact ih

theorem any_updateFirst (ps : List PokerPlayer) (w pid : String) (a b : Nat) :
    (updateFirst ps (fun p => p.playerId == w)
        (fun p => { p with stack := p.stack + a + b })).any
      (fun p => p.playerId == pid) =
    ps.any (fun p => p.playerId == pid) := by
  induction ps with
  | nil => simp [updateFirst]
  | cons hd tl ih =>
    by_cases hw : (hd.playerId == w) = true
    · simp [updateFirst, hw, List.any_cons]
    · simp only [updateFirst, hw, Bool.false_eq_true, if_false, List.any_cons]
      rw [ih]

theorem awardFold_rest (share rem : Nat) (rest : List String) :
    ∀ (k : Nat) (ps : List PokerPlayer), rest.Nodup →
    ∀ pid,
      stackIn ((rest.enumFrom (k + 1)).foldl (fun ps iw =>
        updateFirst ps (fun p => p.playerId == iw.2)
          (fun p => { p with stack := p.stack + share +
            (if iw.1 == 0 then rem else 0) })) ps) pid =
      stackIn ps pid +
        (if pid ∈ rest ∧ ps.any (fun p => p.playerId == pid) = true then share
         else 0) := by
  induction rest with
  | nil => intro k ps _ pid; simp
  | cons w rest' ih =>
    intro k ps hnd pid
    rw [List.enumFrom_cons]
    simp only [List.foldl_cons]
    have hk : ((k + 1 : Nat) == 0) = false := by simp
    rw [hk]
    simp only [Bool.false_eq_true, if_false]
    have hnd' : rest'.Nodup := (List.nodup_cons.mp hnd).2
    have hwrest : w ∉ rest' := (List.nodup_cons.mp hnd).1
    rw [ih (k + 1) _ hnd' pid]
    by_cases hpw : pid = w
    · subst hpw
      rw [stackIn_updateFirst_add ps pid share 0]
      have hno : ¬(pid ∈ rest' ∧ (updateFirst ps (fun p => p.playerId == pid)
          (fun p => { p with stack := p.stack + share + 0 })).any
            (fun p => p.playerId == pid) = true) := by
        intro hcon
        exact hwrest hcon.1
      rw [if_neg hno]
      simp only [List.mem_cons, true_or, true_and]
      by_cases hany : ps.any (fun p => p.playerId == pid) = true
      · simp [hany]
      · simp [hany]
    · rw [stackIn_updateFirst_ne ps w pid share 0 hpw,
        any_updateFirst ps w pid share 0]
      simp only [List.mem_cons, hpw, false_or]

/-! ## Claim C1 -/

/-- C1 counterexample: in `unoS0` (playing phase, `mustCallUno = P0`), the
current player P1 attempts an illegal Wild4 (P1 holds a red card while the
current colour is red).  The ack reports failure, yet the state stored in the
registry differs from the original: the in-place auto-expiry of
`mustCallUno`/`unoPrompt` ran before the validation rejected the play. -/
theorem c1_rejected_mutates_counterexample :
    (handleAction env0 unoS0 "P1"
      (UnoPlayerAction.play "cw4" (some UnoColor.blue))).1.success = false ∧
    (handleAction env0 unoS0 "P1"
      (UnoPlayerAction.play "cw4" (some UnoColor.blue))).2 ≠ unoS0 ∧
    (handleAction env0 unoS0 "P1"
      (UnoPlayerAction.play "cw4" (some UnoColor.blue))).2.mustCallUno = none ∧
    unoS0.mustCallUno = some "P0" := by
  refine ⟨by decide, by decide, by decide, by decide⟩

/-- C1 (amended): a rejected `handleAction` leaves the stored lobby state
unchanged EXCEPT that a pending `mustCallUno`/`unoPrompt` is cleared when the
current player submitted a play/draw/pass; in particular, when `mustCallUno`
is null a rejected action (such as an illegal Wild4) leaves the state exactly
as it was. -/
theorem c1_rejected_action_state (env : UnoEnv) (s : UnoGameState) (pid : String)
    (a : UnoPlayerAction) (h : (handleAction env s pid a).1.success = false) :
    ((handleAction env s pid a).2 = s ∨
      (handleAction env s pid a).2 = clearUno s) ∧
    (s.mustCallUno = none → (handleAction env s pid a).2 = s) := by
  have main : (handleAction env s pid a).2 = s ∨
      (handleAction env s pid a).2 = clearUno s := by
    by_cases hguard : (!s.gameStarted || s.phase ≠ UnoPhase.playing : Bool) = true
    · left; simp only [handleAction]; rw [if_pos hguard]
    · cases a with
      | callUno =>
        rcases hc : applyCallUno env s pid with e | st
        · left; simp only [handleAction]; rw [if_neg hguard]; simp [hc]
        · exfalso
          simp only [handleAction] at h; rw [if_neg hguard] at h; simp [hc] at h
      | catchUno =>
        rcases hc : applyCatchUno env s pid with e | st
        · left; simp only [handleAction]; rw [if_neg hguard]; simp [hc]
        · exfalso
          simp only [handleAction] at h; rw [if_neg hguard] at h; simp [hc] at h
      | draw =>
        simp only [handleAction] at h ⊢; rw [if_neg hguard] at h ⊢
        exact turnAction_rejected env s pid _ h
      | pass =>
        simp only [handleAction] at h ⊢; rw [if_neg hguard] at h ⊢
        exact turnAction_rejected env s pid _ h
      | play cardId chosenColor =>
        simp only [handleAction] at h ⊢; rw [if_neg hguard] at h ⊢
        exact turnAction_rejected env s pid _ h
  refine ⟨main, fun hm => ?_⟩
  rcases main with h1 | h1
  · exact h1
  · rw [h1, clearUno_of_none hm]

/-- C1 witness: the amended statement applied to a concrete rejected draw. -/
theorem c1_rejected_action_state_witness :
    (((handleAction env0 unoS0 "P1" UnoPlayerAction.draw).2 = unoS0 ∨
      (handleAction env0 unoS0 "P1" UnoPlayerAction.draw).2 = clearUno unoS0) ∧
    (unoS0.mustCallUno = none →
      (handleAction env0 unoS0 "P1" UnoPlayerAction.draw).2 = unoS0)) :=
  c1_rejected_action_state env0 unoS0 "P1" UnoPlayerAction.draw (by decide)

/-! ## Claim C2 -/

/-- C2: evaluating the failing input (hole = 2♠ 2♥, community = 2♦ K♠ K♥ K♦
5♣) classifies the hand as Full House but picks the FIRST-encountered trips
(the twos) rather than the highest trips (the kings): the tiebreak vector is
[2, 13] instead of the [13, 2] the specification requires. -/
theorem c2_fullhouse_trips_eval :
    (evaluateHand c2Hole c2Community).rank = 7 ∧
    (evaluateHand c2Hole c2Community).name = "Full House" ∧
    (evaluateHand c2Hole c2Community).tiebreakers = [2, 13] ∧
    (evaluateHand c2Hole c2Community).tiebreakers ≠ [13, 2] := by
  refine ⟨by decide, by decide, by decide, by decide⟩

/-! ## Claim C3 -/

/-- C3 counterexample: two players with identical two pair split a pot of
201 with the dealer at seat 0.  The specification's claim says the first
winner CLOCKWISE FROM THE DEALER (seat 1, P1) receives the odd chip; the
code gives it to the first entry of `findWinners` — the tied winner earliest
in the player list (seat 0, P0, the dealer): P0 ends with 1101, P1 with
1100. -/
theorem c3_odd_chip_counterexample :
    ((showdownAward pokerS0).players.map (fun p => (p.playerId, p.stack))) =
      [("P0", 1101), ("P1", 1100)] ∧
    stackOf (showdownAward pokerS0) "P1" ≠ 1101 ∧
    pokerS0.dealerIndex = 0 ∧
    ((pokerS0.pots.map (fun p => p.amount)).sum) = 201 := by
  refine ⟨by decide, by decide, by decide, by decide⟩

/-- C3 (amended): `awardPot` gives every winner `floor(pot / k)` and the odd
chips go to the FIRST winner in the `winnerIds` list (with tied hands that is
the non-folded winner earliest in the lobby's player list, independent of the
dealer position); other winners get exactly the floor share and non-winners
are untouched. -/
theorem c3_awardPot_split (lobby : PokerGameState) (w0 : String)
    (rest : List String) (hnd : (w0 :: rest).Nodup)
    (hpres : ∀ w ∈ w0 :: rest,
      lobby.players.any (fun p => p.playerId == w) = true) :
    (stackOf (awardPot lobby (w0 :: rest)) w0 =
      stackOf lobby w0 +
        ((lobby.pots.map (fun p => p.amount)).sum) / (w0 :: rest).length +
        ((lobby.pots.map (fun p => p.amount)).sum) % (w0 :: rest).length) ∧
    (∀ w ∈ rest, stackOf (awardPot lobby (w0 :: rest)) w =
      stackOf lobby w +
        ((lobby.pots.map (fun p => p.amount)).sum) / (w0 :: rest).length) ∧
    (∀ pid, pid ∉ w0 :: rest →
      stackOf (awardPot lobby (w0 :: rest)) pid = stackOf lobby pid) := by
  have hw0rest : w0 ∉ rest := (List.nodup_cons.mp hnd).1
  have hndr : rest.Nodup := (List.nodup_cons.mp hnd).2
  unfold awardPot stackOf
  dsimp only
  rw [List.enum_cons]
  simp only [List.foldl_cons]
  have h00 : ((0 : Nat) == 0) = true := rfl
  rw [h00]
  simp only [if_true]
  set total := (lobby.pots.map (fun p => p.amount)).sum with htotal
  set share := total / (w0 :: rest).length with hshare
  set rem := total % (w0 :: rest).length with hrem
  set ps1 := updateFirst lobby.players (fun p => p.playerId == w0)
    (fun p => { p with stack := p.stack + share + rem }) with hps1
  refine ⟨?_, ?_, ?_⟩
  · rw [awardFold_rest share rem rest 0 ps1 hndr w0]
    have hno : ¬(w0 ∈ rest ∧ ps1.any (fun p => p.playerId == w0) = true) :=
      fun hcon => hw0rest hcon.1
    rw [if_neg hno, hps1, stackIn_updateFirst_add]
    rw [hpres w0 (List.mem_cons_self w0 rest)]
    simp only [if_true]
    omega
  · intro w hw
    rw [awardFold_rest share rem rest 0 ps1 hndr w]
    have hwne : w ≠ w0 := fun he => hw0rest (he ▸ hw)
    have hany : ps1.any (fun p => p.playerId == w) = true := by
      rw [hps1, any_updateFirst]
      exact hpres w (List.mem_cons_of_mem w0 hw)
    rw [if_pos ⟨hw, hany⟩, hps1, stackIn_updateFirst_ne _ _ _ _ _ hwne]
  · intro pid hpid
    rw [awardFold_rest share rem rest 0 ps1 hndr pid]
    have hnr : pid ∉ rest := fun hm => hpid (List.mem_cons_of_mem w0 hm)
    have hne0 : pid ≠ w0 := fun he => hpid (he ▸ List.mem_cons_self w0 rest)
    have hno : ¬(pid ∈ rest ∧ ps1.any (fun p => p.playerId == pid) = true) :=
      fun hcon => hnr hcon.1
    rw [if_neg hno, hps1, stackIn_updateFirst_ne _ _ _ _ _ hne0]
    omega

/-- C3 witness: the amended split applied to the concrete 201-chip pot. -/
theorem c3_awardPot_split_witness :
    (stackOf (awardPot pokerS0 ("P0" :: ["P1"])) "P0" =
      stackOf pokerS0 "P0" +
        ((pokerS0.pots.map (fun p => p.amount)).sum) / ("P0" :: ["P1"]).length +
        ((pokerS0.pots.map (fun p => p.amount)).sum) % ("P0" :: ["P1"]).length) ∧
    (∀ w ∈ ["P1"], stackOf (awardPot pokerS0 ("P0" :: ["P1"])) w =
      stackOf pokerS0 w +
        ((pokerS0.pots.map (fun p => p.amount)).sum) / ("P0" :: ["P1"]).length) ∧
    (∀ pid, pid ∉ "P0" :: ["P1"] →
      stackOf (awardPot pokerS0 ("P0" :: ["P1"])) pid = stackOf pokerS0 pid) :=
  c3_awardPot_split pokerS0 "P0" ["P1"] (by decide) (by decide)

/-! ## Claim C4 -/

/-- C4 counterexample: a Wild is playable by `isPlayableCard` (and is not a
Wild4, so the colour-holding restriction is vacuous), yet the play is
rejected because no `chosenColor` accompanies it — the claimed
iff over `isPlayable` + the Wild4 restriction alone is false. -/
theorem c4_wild_color_counterexample :
    isPlayableCard UnoCardFace.wild
      (some (UnoCardFace.number UnoColor.red 5)) (some UnoColor.red) = true ∧
    (handleAction env0 unoS0 "P1" (UnoPlayerAction.play "cw" none)).1.success =
      false := by
  refine ⟨by decide, by decide⟩

/-- C4 (amended): for the current player in playing phase, a `play` is
accepted iff the named card is in the hand, it is the pending drawn card when
`drawnPlayable` points at this player, `isPlayableCard` holds on the top face
and current colour, the Wild4 restriction holds (no card of the current
colour in hand), and a `chosenColor` accompanies wild cards — the conjunction
packaged as `playAccepted`. -/
theorem c4_play_acceptance_iff (env : UnoEnv) (s : UnoGameState)
    (pid cid : String) (col : Option UnoColor)
    (hg : s.gameStarted = true) (hp : s.phase = UnoPhase.playing)
    (hcur : isCurrentPlayer s pid = true) :
    ((handleAction env s pid (UnoPlayerAction.play cid col)).1.success = true ↔
      playAccepted s pid cid col = true) := by
  have hdisp : handleAction env s pid (UnoPlayerAction.play cid col)
      = turnAction env s pid (fun s1 => applyPlay env s1 pid cid col) := by
    simp [handleAction, hg, hp]
  rw [hdisp, turnAction_success env s pid _ hcur]
  rw [applyPlay_isOk, playAccepted_clearUno]

/-- C4 witness: the acceptance characterization at a concrete legal play. -/
theorem c4_play_acceptance_iff_witness :
    ((handleAction env0 unoS0 "P1"
        (UnoPlayerAction.play "c2" none)).1.success = true ↔
      playAccepted unoS0 "P1" "c2" none = true) :=
  c4_play_acceptance_iff env0 unoS0 "P1" "c2" none (by decide) (by decide)
    (by decide)

/-! ## Claim C5 -/

/-- C5: the reconnect path of `joinLobby` is an accepted mutating command
(P1's `lastSeenAt` is updated in place) whose stored version does NOT
increase: the source calls `bump(code)` but then overwrites the registry
entry with the original un-bumped object (`this.lobbies.set(code, lobby)`),
contradicting the strict version-monotonicity invariant. -/
theorem c5_reconnect_version_bug :
    (joinLobby env0 unoS0 "P1" "P1" none none none).1.success = true ∧
    (joinLobby env0 unoS0 "P1" "P1" none none none).2 ≠ unoS0 ∧
    (joinLobby env0 unoS0 "P1" "P1" none none none).2.version = unoS0.version := by
  refine ⟨by decide, by decide, by decide⟩

/-! ## Claim C6 -/

/-- C6: every accepted in-game UNO action (play, draw, pass, callUno,
catchUno — reshuffles of the discard pile included) conserves the total
number of cards across all hands, the draw pile and the discard pile. -/
theorem c6_card_conservation (env : UnoEnv) (s : UnoGameState) (pid : String)
    (a : UnoPlayerAction) (h : (handleAction env s pid a).1.success = true) :
    totalCards (handleAction env s pid a).2 = totalCards s := by
  by_cases hguard : (!s.gameStarted || s.phase ≠ UnoPhase.playing : Bool) = true
  · exfalso; simp only [handleAction] at h; rw [if_pos hguard] at h; cases h
  · cases a with
    | callUno =>
      rcases hc : applyCallUno env s pid with e | st
      · exfalso
        simp only [handleAction] at h; rw [if_neg hguard] at h; simp [hc] at h
      · simp only [handleAction]; rw [if_neg hguard]; simp only [hc]
        exact applyCallUno_total env s pid st hc
    | catchUno =>
      rcases hc : applyCatchUno env s pid with e | st
      · exfalso
        simp only [handleAction] at h; rw [if_neg hguard] at h; simp [hc] at h
      · simp only [handleAction]; rw [if_neg hguard]; simp only [hc]
        exact applyCatchUno_total env s pid st hc
    | draw =>
      simp only [handleAction] at h ⊢; rw [if_neg hguard] at h ⊢
      exact turnAction_total env s pid _
        (fun s' hs => applyDraw_total env (clearUno s) pid s' hs) h
    | pass =>
      simp only [handleAction] at h ⊢; rw [if_neg hguard] at h ⊢
      exact turnAction_total env s pid _
        (fun s' hs => applyPass_total env (clearUno s) pid s' hs) h
    | play cardId chosenColor =>
      simp only [handleAction] at h ⊢; rw [if_neg hguard] at h ⊢
      exact turnAction_total env s pid _
        (fun s' hs => applyPlay_total env (clearUno s) pid cardId chosenColor s' hs) h

/-- C6 witness: conservation at a concrete accepted play (P1 plays Red 3). -/
theorem c6_card_conservation_witness :
    totalCards (handleAction env0 unoS0 "P1"
      (UnoPlayerAction.play "c2" none)).2 = totalCards unoS0 :=
  c6_card_conservation env0 unoS0 "P1" (UnoPlayerAction.play "c2" none)
    (by decide)

/-! ## Claim C7 -/

/-- C7: the per-viewer projections hide hidden data.  UNO: the viewer's own
hand is shown verbatim; every opponent entry equals the synthetic
`hiddenHand` of the opponent's hand SIZE (so each placeholder has a `wild`
face and a `hidden_…` id — no real face or id leaks).  Poker: a player's
hole cards are revealed exactly to their owner, or to everyone at showdown
when the player has not folded, and are `null` otherwise. -/
theorem c7_projection_hides (s : UnoGameState) (viewer pid : String)
    (h : List UnoCard) (hm : (pid, h) ∈ unoClientHands s viewer)
    (g : PokerGameState) (pviewer : String) (q : PokerPlayer)
    (hq : q ∈ g.players) :
    ((pid = viewer → h = recGet s.hands pid) ∧
     (pid ≠ viewer →
       h = hiddenHand pid (recGet s.hands pid).length ∧
       h.length = (recGet s.hands pid).length ∧
       ∀ c ∈ h, c.face = UnoCardFace.wild)) ∧
    ((q.playerId = pviewer →
       (pokerClientPlayer g pviewer q).holeCards = some q.holeCards) ∧
     (q.playerId ≠ pviewer → g.street = Street.showdown → q.folded = false →
       (pokerClientPlayer g pviewer q).holeCards = some q.holeCards) ∧
     (q.playerId ≠ pviewer → (g.street ≠ Street.showdown ∨ q.folded = true) →
       (pokerClientPlayer g pviewer q).holeCards = none)) := by
  constructor
  · simp only [unoClientHands, List.mem_map] at hm
    obtain ⟨p, hp, heq⟩ := hm
    have hid : p.playerId = pid := congrArg Prod.fst heq
    have hh := congrArg Prod.snd heq
    simp only at hh
    constructor
    · intro hv
      rw [← hh, hid]
      simp [hv]
    · intro hv
      have h1 : h = hiddenHand pid (recGet s.hands pid).length := by
        rw [← hh, hid]; simp [hv]
      refine ⟨h1, ?_, ?_⟩
      · rw [h1]; simp [hiddenHand]
      · intro c hc
        rw [h1] at hc
        simp only [hiddenHand, List.mem_map] at hc
        obtain ⟨i, _, hceq⟩ := hc
        rw [← hceq]
  · refine ⟨?_, ?_, ?_⟩
    · intro hv; simp [pokerClientPlayer, hv]
    · intro hv hs hf; simp [pokerClientPlayer, hv, hs, hf]
    · intro hv hs
      rcases hs with hs | hs
      · simp [pokerClientPlayer, hv, hs]
      · simp [pokerClientPlayer, hv, hs]

/-- C7 witness: the projection law applied to `unoS0` viewed by P1 (P0's
entry must be the placeholder hand) and to `pokerS0` viewed by P0. -/
theorem c7_projection_hides_witness :
    ((("P0" : String) = "P1" →
        hiddenHand "P0" 1 = recGet unoS0.hands "P0") ∧
     (("P0" : String) ≠ "P1" →
       hiddenHand "P0" 1 = hiddenHand "P0" (recGet unoS0.hands "P0").length ∧
       (hiddenHand "P0" 1).length = (recGet unoS0.hands "P0").length ∧
       ∀ c ∈ hiddenHand "P0" 1, c.face = UnoCardFace.wild)) ∧
    (((mkPokerPlayer "P1" 1 [⟨Rank.three, Suit.hearts⟩,
        ⟨Rank.four, Suit.spades⟩]).playerId = "P0" →
       (pokerClientPlayer pokerS0 "P0" (mkPokerPlayer "P1" 1
         [⟨Rank.three, Suit.hearts⟩, ⟨Rank.four, Suit.spades⟩])).holeCards =
         some (mkPokerPlayer "P1" 1 [⟨Rank.three, Suit.hearts⟩,
           ⟨Rank.four, Suit.spades⟩]).holeCards) ∧
     ((mkPokerPlayer "P1" 1 [⟨Rank.three, Suit.hearts⟩,
        ⟨Rank.four, Suit.spades⟩]).playerId ≠ "P0" →
       pokerS0.street = Street.showdown →
       (mkPokerPlayer "P1" 1 [⟨Rank.three, Suit.hearts⟩,
         ⟨Rank.four, Suit.spades⟩]).folded = false →
       (pokerClientPlayer pokerS0 "P0" (mkPokerPlayer "P1" 1
         [⟨Rank.three, Suit.hearts⟩, ⟨Rank.four, Suit.spades⟩])).holeCards =
         some (mkPokerPlayer "P1" 1 [⟨Rank.three, Suit.hearts⟩,
           ⟨Rank.four, Suit.spades⟩]).holeCards) ∧
     ((mkPokerPlayer "P1" 1 [⟨Rank.three, Suit.hearts⟩,
        ⟨Rank.four, Suit.spades⟩]).playerId ≠ "P0" →
       (pokerS0.street ≠ Street.showdown ∨
         (mkPokerPlayer "P1" 1 [⟨Rank.three, Suit.hearts⟩,
           ⟨Rank.four, Suit.spades⟩]).folded = true) →
       (pokerClientPlayer pokerS0 "P0" (mkPokerPlayer "P1" 1
         [⟨Rank.three, Suit.hearts⟩, ⟨Rank.four, Suit.spades⟩])).holeCards =
         none)) :=
  c7_projection_hides unoS0 "P1" "P0" (hiddenHand "P0" 1) (by decide)
    pokerS0 "P0"
    (mkPokerPlayer "P1" 1 [⟨Rank.three, Suit.hearts⟩, ⟨Rank.four, Suit.spades⟩])
    (by decide)

/-! ## Claim C8 -/

/-- C8: with an active-lobby entry recorded for a user, `createLobby` is
blocked, `joinLobby` to any different lobby or game type is blocked, while
`joinLobby` naming exactly the recorded game type and code passes the guard;
and the engine treats a join by an existing member as a successful
reconnect. -/
theorem c8_multi_lobby_guard (m : List (String × ActiveLobby)) (userId : String)
    (e : ActiveLobby) (h : lookupActive m userId = some e) :
    createLobbyGuardAllows m userId = false ∧
    (∀ gt code, ¬(gt = e.gameType ∧ code = e.lobbyCode) →
      joinLobbyGuardAllows m userId gt code = false) ∧
    joinLobbyGuardAllows m userId e.gameType e.lobbyCode = true ∧
    (∀ env s nickname a b c,
      s.players.any (fun p => p.playerId == userId) = true →
      (joinLobby env s userId nickname a b c).1.success = true) := by
  refine ⟨?_, ?_, ?_, ?_⟩
  · simp [createLobbyGuardAllows, h]
  · intro gt code hne
    simp only [joinLobbyGuardAllows, h]
    by_cases hg : e.gameType = gt
    · by_cases hc2 : e.lobbyCode = code
      · exact absurd ⟨hg.symm, hc2.symm⟩ hne
      · simp [hg, hc2]
    · simp [hg]
  · simp [joinLobbyGuardAllows, h]
  · intro env s nickname a b c hmem
    simp [joinLobby, hmem]

/-- C8 witness: the guard at a concrete session index holding one entry. -/
theorem c8_multi_lobby_guard_witness :
    createLobbyGuardAllows [("u1", ⟨GameType.uno, "UNO001"⟩)] "u1" = false ∧
    (∀ gt code, ¬(gt = (⟨GameType.uno, "UNO001"⟩ : ActiveLobby).gameType ∧
        code = (⟨GameType.uno, "UNO001"⟩ : ActiveLobby).lobbyCode) →
      joinLobbyGuardAllows [("u1", ⟨GameType.uno, "UNO001"⟩)] "u1" gt code =
        false) ∧
    joinLobbyGuardAllows [("u1", ⟨GameType.uno, "UNO001"⟩)] "u1"
      (⟨GameType.uno, "UNO001"⟩ : ActiveLobby).gameType
      (⟨GameType.uno, "UNO001"⟩ : ActiveLobby).lobbyCode = true ∧
    (∀ env s nickname a b c,
      s.players.any (fun p => p.playerId == "u1") = true →
      (joinLobby env s "u1" nickname a b c).1.success = true) :=
  c8_multi_lobby_guard [("u1", ⟨GameType.uno, "UNO001"⟩)] "u1"
    ⟨GameType.uno, "UNO001"⟩ (by decide)

/-! ## Claim C9 -/

/-- C9: when `mustCallUno` names the caller, the first `callUno` succeeds and
clears both the obligation and the prompt; an immediately following second
`callUno` by the same player returns an error and leaves the stored state
exactly unchanged — two calls are equivalent to one. -/
theorem c9_calluno_idempotent (env env2 : UnoEnv) (s : UnoGameState)
    (pid : String) (hg : s.gameStarted = true) (hp : s.phase = UnoPhase.playing)
    (hm : s.mustCallUno = some pid) :
    (handleAction env s pid UnoPlayerAction.callUno).1.success = true ∧
    (handleAction env s pid UnoPlayerAction.callUno).2.mustCallUno = none ∧
    (handleAction env s pid UnoPlayerAction.callUno).2.unoPrompt = none ∧
    (handleAction env2 (handleAction env s pid UnoPlayerAction.callUno).2 pid
      UnoPlayerAction.callUno).1.success = false ∧
    (handleAction env2 (handleAction env s pid UnoPlayerAction.callUno).2 pid
      UnoPlayerAction.callUno).2 =
      (handleAction env s pid UnoPlayerAction.callUno).2 := by
  simp only [handleAction, applyCallUno, hg, hp, hm, bumpState, addLog]
  simp

/-- C9 witness: the idempotence law at the concrete lobby `unoS0` (P0 owes
the call). -/
theorem c9_calluno_idempotent_witness :
    (handleAction env0 unoS0 "P0" UnoPlayerAction.callUno).1.success = true ∧
    (handleAction env0 unoS0 "P0" UnoPlayerAction.callUno).2.mustCallUno = none ∧
    (handleAction env0 unoS0 "P0" UnoPlayerAction.callUno).2.unoPrompt = none ∧
    (handleAction env0 (handleAction env0 unoS0 "P0" UnoPlayerAction.callUno).2
      "P0" UnoPlayerAction.callUno).1.success = false ∧
    (handleAction env0 (handleAction env0 unoS0 "P0" UnoPlayerAction.callUno).2
      "P0" UnoPlayerAction.callUno).2 =
      (handleAction env0 unoS0 "P0" UnoPlayerAction.callUno).2 :=
  c9_calluno_idempotent env0 env0 unoS0 "P0" (by decide) (by decide) (by decide)

/-! ## Claim C10 -/

/-- C10: while `drawnPlayable = {playerId := P, cardId := C}` and P is the
current player, a `play` naming any card other than C is rejected, a second
`draw` is rejected, and a `pass` is accepted. -/
theorem c10_drawn_playable_lock (env : UnoEnv) (s : UnoGameState)
    (pid cid : String) (hg : s.gameStarted = true)
    (hp : s.phase = UnoPhase.playing) (hcur : isCurrentPlayer s pid = true)
    (hdp : s.drawnPlayable = some ⟨pid, cid⟩) :
    (∀ d col, d ≠ cid →
      (handleAction env s pid (UnoPlayerAction.play d col)).1.success = false) ∧
    (handleAction env s pid UnoPlayerAction.draw).1.success = false ∧
    (handleAction env s pid UnoPlayerAction.pass).1.success = true := by
  have hdp1 : (clearUno s).drawnPlayable = some ⟨pid, cid⟩ := by
    rw [clearUno_drawnPlayable, hdp]
  refine ⟨?_, ?_, ?_⟩
  · intro d col hne
    simp only [handleAction, hg, hp]
    simp only [turnAction, hcur]
    rcases hfi : (recGet (clearUno s).hands pid).findIdx? (fun c => c.id == d)
      with _ | ci
    · simp [applyPlay, hfi]
    · simp [applyPlay, hfi, hdp1, bne_iff_ne, Ne.symm hne]
  · simp only [handleAction, hg, hp]
    simp only [turnAction, hcur]
    simp [applyDraw, hdp1]
  · simp only [handleAction, hg, hp]
    simp only [turnAction, hcur]
    simp [applyPass, hdp1]

/-- C10 witness: the lock at `unoS1`, where P1 drew the playable Wild
`cw`. -/
theorem c10_drawn_playable_lock_witness :
    (∀ d col, d ≠ "cw" →
      (handleAction env0 unoS1 "P1" (UnoPlayerAction.play d col)).1.success =
        false) ∧
    (handleAction env0 unoS1 "P1" UnoPlayerAction.draw).1.success = false ∧
    (handleAction env0 unoS1 "P1" UnoPlayerAction.pass).1.success = true :=
  c10_drawn_playable_lock env0 unoS1 "P1" "cw" (by decide) (by decide)
    (by decide) (by decide)

end BulkGames
